import Mathlib

/-!
# l-vitaly/mailapi: JSON-RPC 2.0 registry and codec

A shallow embedding of the vendored `jsonrpc` package (`map.go`), its `json2`
codec (`json2/server.go`, `json2/error.go`) and the mail service (`service.go`),
followed by theorems about them.

Conventions of the embedding

* Go maps `map[string]T` are association lists with `GoMap.get` / `GoMap.set`.
* A request body is either malformed bytes or a JSON document, given as a tree;
  a `json.RawMessage` is the subtree it spans.
* Values of type `interface{}` that reach the JSON encoder are given by what the
  encoder makes of them (`Iface`).
* The `http.ResponseWriter` is a record of the header map, the documents the JSON
  encoder wrote, and the calls handed to `jsonrpc.WriteError`.
* The registry mutex is left out: every operation is modelled as running alone.
-/

namespace Mailapi

/-! ## JSON documents -/

/-- A JSON document. Number literals are kept by their integer value. -/
inductive JSON where
  | null : JSON
  | bool (b : Bool) : JSON
  | num (n : Int) : JSON
  | str (s : String) : JSON
  | arr (items : List JSON) : JSON
  | obj (members : List (String × JSON)) : JSON

namespace JSON

/-- The word by which `encoding/json` names the kind of a value in a type error. -/
def kindName : JSON → String
  | null => "null"
  | bool _ => "bool"
  | num _ => "number"
  | str _ => "string"
  | arr _ => "array"
  | obj _ => "object"

/-- Whether the document is the literal `null`. -/
def isNull : JSON → Bool
  | null => true
  | _ => false

end JSON

/-- A request body as read from the transport: bytes that are not a JSON text
(with the decoder's complaint), or a JSON document. -/
inductive Body where
  | malformed (msg : String) : Body
  | doc (j : JSON) : Body

/-- A Go `interface{}` value on its way to the JSON encoder: either a value the
encoder turns into the document `j`, or one it rejects with the error text `why`. -/
inductive Iface where
  | json (j : JSON) : Iface
  | unencodable (why : String) : Iface

/-- The function `json.Marshal` on an `interface{}` value. -/
def Iface.marshal : Iface → Except String JSON
  | Iface.json j => Except.ok j
  | Iface.unencodable why => Except.error why

/-! ## Go maps -/

/-- A Go `map[string]T`. -/
abbrev GoMap (α : Type) := List (String × α)

namespace GoMap

/-- The lookup `m[k]`, `none` standing for the zero value of a pointer type. -/
def get {α : Type} (m : GoMap α) (k : String) : Option α :=
  match m with
  | [] => none
  | (k', v) :: rest => if k' = k then some v else get rest k

/-- The test `_, ok := m[k]`. -/
def has {α : Type} (m : GoMap α) (k : String) : Bool :=
  match m with
  | [] => false
  | (k', _) :: rest => if k' = k then true else has rest k

/-- The assignment `m[k] = v`. -/
def set {α : Type} (m : GoMap α) (k : String) (v : α) : GoMap α :=
  match m with
  | [] => [(k, v)]
  | (k', v') :: rest => if k' = k then (k, v) :: rest else (k', v') :: set rest k v

end GoMap

/-! ## json2/error.go -/

namespace json2

/-- ErrorCode JSON RPC error code type. -/
abbrev ErrorCode := Int

/-- Invalid JSON was received by the server. -/
def ErrParse : ErrorCode := -32700
/-- The JSON sent is not a valid Request object. -/
def ErrInvalidRequest : ErrorCode := -32600
/-- The method does not exist / is not available. -/
def ErrMethodNotFound : ErrorCode := -32601
/-- Invalid method parameter(s). -/
def ErrBadParams : ErrorCode := -32602
/-- Internal JSON-RPC error. -/
def ErrInternal : ErrorCode := -32603
/-- Reserved for implementation-defined server-errors. -/
def ErrServer : ErrorCode := -32000

/-- Error JSON RPC error structure. -/
structure Error where
  Code : ErrorCode
  Message : String
  Data : Option Iface := none

end json2

/-- A Go `error` value, as far as the codec can tell values apart: a
`*json2.Error`, one of the three package-level values of `map.go`, or any other
error, known by its text. -/
inductive GoError where
  | rpc (e : json2.Error) : GoError
  | ErrRequestIllFormed : GoError
  | ErrServiceNotFound : GoError
  | ErrMethodNotFound : GoError
  | plain (msg : String) : GoError

/-- The method `Error()` of an error value. -/
def GoError.Error : GoError → String
  | GoError.rpc e => e.Message
  | GoError.ErrRequestIllFormed => "service/method request ill-formed"
  | GoError.ErrServiceNotFound => "can't find service"
  | GoError.ErrMethodNotFound => "rpc: can't find method"
  | GoError.plain msg => msg

/-! ## net/http response writer -/

/-- What a handler did to its `http.ResponseWriter`. -/
structure ResponseWriter where
  /-- The header map `w.Header()`. -/
  header : GoMap String := []
  /-- The documents the JSON encoder wrote to the body, oldest first. -/
  written : List JSON := []
  /-- The calls `jsonrpc.WriteError(w, status, msg)`, oldest first; that function
  lives in the `jsonrpc` package outside `map.go` and is kept as a recorded call. -/
  errorCalls : List (Int × String) := []

/-- The call `w.Header().Set(k, v)`. -/
def ResponseWriter.setHeader (w : ResponseWriter) (k v : String) : ResponseWriter :=
  { w with header := GoMap.set w.header k v }

/-- The number of things sent to the body so far. -/
def ResponseWriter.bodyCount (w : ResponseWriter) : Nat :=
  w.written.length + w.errorCalls.length

/-! ## json2/server.go -/

namespace json2

/-- Version JSON RPC current version. -/
def Version : String := "2.0"

/-- A JSON-RPC request received by the server. `Params` and `ID` are
`*json.RawMessage`: `none` is the nil pointer. -/
structure serverRequest where
  Version : String := ""
  Method : String := ""
  Params : Option JSON := none
  ID : Option JSON := none

/-- A JSON-RPC response returned by the server. -/
structure serverResponse where
  Version : String
  Result : Option Iface := none
  Error : Option Error := none
  ID : Option JSON := none

/-- CodecRequest decodes and encodes a single request. The `encoder` field only
wraps the writer and is left out. -/
structure CodecRequest where
  request : serverRequest
  err : Option GoError
  body : Body

/-! ### Decoding with `encoding/json`

The library matches an object member to a struct field by name, ignoring case;
a string field takes a JSON string, keeps its value on `null`, and reports a type
error on anything else while decoding goes on; a `*json.RawMessage` field becomes
nil on `null` and takes any other value as it is. The first error is the one
returned. -/

/-- The case folding used to compare a member name with a field name. -/
def foldRune (r : Char) : Char :=
  if r = Char.ofNat 0x17F then 's'
  else if r = Char.ofNat 0x212A then 'k'
  else r.toLower

/-- Whether the member name `key` selects the field tagged `field`. -/
def equalFold (field key : String) : Bool :=
  key.data.map foldRune == field.data.map foldRune

/-- The text of an `UnmarshalTypeError` on a string field. -/
def typeMismatch (j : JSON) (field : String) : String :=
  "json: cannot unmarshal " ++ j.kindName ++ " into Go struct field serverRequest." ++
    field ++ " of type string"

/-- Keeps the first error of a decoding run. -/
def saveError (saved : Option String) (msg : String) : Option String :=
  match saved with
  | none => some msg
  | some first => some first

/-- Stores a JSON value into a `string` field holding `cur`. -/
def storeString (j : JSON) (field cur : String) (saved : Option String) :
    String × Option String :=
  match j with
  | JSON.str v => (v, saved)
  | JSON.null => (cur, saved)
  | other => (cur, saveError saved (typeMismatch other field))

/-- Stores a JSON value into a `*json.RawMessage` field. -/
def storeRaw (j : JSON) : Option JSON :=
  if j.isNull then none else some j

/-- Decodes one member of the request object into the struct. -/
def storeMember (st : serverRequest × Option String) (kv : String × JSON) :
    serverRequest × Option String :=
  if equalFold "jsonrpc" kv.1 then
    ({ st.1 with Version := (storeString kv.2 "jsonrpc" st.1.Version st.2).1 },
      (storeString kv.2 "jsonrpc" st.1.Version st.2).2)
  else if equalFold "method" kv.1 then
    ({ st.1 with Method := (storeString kv.2 "method" st.1.Method st.2).1 },
      (storeString kv.2 "method" st.1.Method st.2).2)
  else if equalFold "params" kv.1 then
    ({ st.1 with Params := storeRaw kv.2 }, st.2)
  else if equalFold "id" kv.1 then
    ({ st.1 with ID := storeRaw kv.2 }, st.2)
  else st

/-- The call `json.Unmarshal(body, req)` on a `*serverRequest`: the struct as the
call leaves it and the error it returns. -/
def jsonUnmarshal (body : Body) (req : serverRequest) : serverRequest × Option String :=
  match body with
  | Body.malformed msg => (req, some msg)
  | Body.doc JSON.null => (req, none)
  | Body.doc (JSON.obj members) => members.foldl storeMember (req, none)
  | Body.doc other =>
    (req, some ("json: cannot unmarshal " ++ other.kindName ++
      " into Go value of type json2.serverRequest"))

/-- The call `json.Unmarshal(raw, &data)` with `data` a nil
`map[string]interface{}`: the map (still nil on `null`) or the error. -/
def unmarshalMap (raw : JSON) : Except String (Option (GoMap JSON)) :=
  match raw with
  | JSON.obj members =>
    Except.ok (some (members.foldl (fun m kv => GoMap.set m kv.1 kv.2) []))
  | JSON.null => Except.ok none
  | other =>
    Except.error ("json: cannot unmarshal " ++ other.kindName ++
      " into Go value of type map[string]interface \x7b\x7d")

/-! ### The codec -/

/-- The function `newCodecRequest`: decodes the request body and checks the version. -/
def newCodecRequest (body : Body) : CodecRequest :=
  match (jsonUnmarshal body {}).2 with
  | some msg =>
    { request := (jsonUnmarshal body {}).1,
      err := some (GoError.rpc { Code := ErrParse, Message := msg }),
      body := body }
  | none =>
    if (jsonUnmarshal body {}).1.Version ≠ Version then
      { request := (jsonUnmarshal body {}).1,
        err := some (GoError.rpc
          { Code := ErrInvalidRequest, Message := "jsonrpc must be " ++ Version }),
        body := body }
    else
      { request := (jsonUnmarshal body {}).1, err := none, body := body }

/-- Method returns the RPC method for the current request. -/
def Method (c : CodecRequest) : String × Option GoError :=
  match c.err with
  | none => (c.request.Method, none)
  | some e => ("", some e)

/-- ReadRequest fills the request object for the RPC method. The argument `decode`
is `mapstructure`'s `Decode` into `args` (tag `ms`, the codec's time hook, no weak
typing): it returns the target as it leaves it and its error. The result is the
codec after the call, the target after the call, and the error returned. -/
def ReadRequest {α : Type} (decode : Option (GoMap JSON) → α → α × Option String)
    (c : CodecRequest) (args : α) : CodecRequest × α × Option GoError :=
  match c.err, c.request.Params with
  | none, some params =>
    match unmarshalMap params with
    | Except.error msg =>
      ({ c with err := some (GoError.rpc
          { Code := ErrInvalidRequest, Message := msg, Data := some (Iface.json params) }) },
        args,
        some (GoError.rpc
          { Code := ErrInvalidRequest, Message := msg, Data := some (Iface.json params) }))
    | Except.ok data =>
      match (decode data args).2 with
      | some msg =>
        ({ c with err := some (GoError.rpc
            { Code := ErrBadParams, Message := msg, Data := some (Iface.json params) }) },
          (decode data args).1,
          some (GoError.rpc
            { Code := ErrBadParams, Message := msg, Data := some (Iface.json params) }))
      | none => (c, (decode data args).1, none)
  | _, _ => (c, args, c.err)

/-! ### Encoding and writing -/

/-- The JSON encoding of an `*Error`: `code`, `message`, and `data` unless empty. -/
def encodeError (e : Error) : Except String JSON :=
  match e.Data with
  | none => Except.ok (JSON.obj [("code", JSON.num e.Code), ("message", JSON.str e.Message)])
  | some d =>
    match d.marshal with
    | Except.error why => Except.error why
    | Except.ok j =>
      Except.ok (JSON.obj [("code", JSON.num e.Code), ("message", JSON.str e.Message), ("data", j)])

/-- The members `result` and `error` of an encoded response, each left out when
empty (`omitempty`). -/
def encodeOptional (res : serverResponse) : Except String (List (String × JSON)) :=
  match res.Result with
  | none =>
    match res.Error with
    | none => Except.ok []
    | some e =>
      match encodeError e with
      | Except.error why => Except.error why
      | Except.ok je => Except.ok [("error", je)]
  | some r =>
    match r.marshal with
    | Except.error why => Except.error why
    | Except.ok jr =>
      match res.Error with
      | none => Except.ok [("result", jr)]
      | some e =>
        match encodeError e with
        | Except.error why => Except.error why
        | Except.ok je => Except.ok [("result", jr), ("error", je)]

/-- The call `encoder.Encode(res)` of `encoding/json` on a `*serverResponse`:
the document written, or the error returned with nothing written. -/
def encodeResponse (res : serverResponse) : Except String JSON :=
  match encodeOptional res with
  | Except.error why => Except.error why
  | Except.ok mid =>
    Except.ok (JSON.obj ([("jsonrpc", JSON.str res.Version)] ++ mid ++
      [("id", match res.ID with | none => JSON.null | some raw => raw)]))

/-- The test `res.Error != nil && (res.Error.Code == ErrParse ||
res.Error.Code == ErrInvalidRequest)`. -/
def isParseOrInvalid (res : serverResponse) : Bool :=
  match res.Error with
  | none => false
  | some e => e.Code == ErrParse || e.Code == ErrInvalidRequest

/-- The method `writeServerResponse` of `CodecRequest`. -/
def writeServerResponse (c : CodecRequest) (w : ResponseWriter) (res : serverResponse) :
    ResponseWriter :=
  -- Id is null for notifications and they do not have a response.
  if c.request.ID.isSome || isParseOrInvalid res then
    let w1 := w.setHeader "Content-Type" "application/json; charset=utf-8"
    match encodeResponse res with
    | Except.ok j => { w1 with written := w1.written ++ [j] }
    | Except.error why => { w1 with errorCalls := w1.errorCalls ++ [(400, why)] }
  else
    let w1 := w.setHeader "Content-Type" "application/json; charset=utf-8"
    w1.setHeader "Json-Rpc" "notify"

/-- The `res` value that `WriteResponse` builds. -/
def successResponse (c : CodecRequest) (reply : Option Iface) : serverResponse :=
  { Version := Version, Result := reply, ID := c.request.ID }

/-- WriteResponse encodes the response and writes it to the ResponseWriter. -/
def WriteResponse (c : CodecRequest) (w : ResponseWriter) (reply : Option Iface) :
    ResponseWriter :=
  writeServerResponse c w (successResponse c reply)

/-- The `jsonErr` value of `WriteError`: the error itself when it is an `*Error`,
otherwise a fresh one whose code depends on the error value. -/
def toJSONError (err : GoError) : Error :=
  match err with
  | GoError.rpc e => e
  | GoError.ErrMethodNotFound => { Code := ErrMethodNotFound, Message := err.Error }
  | GoError.ErrServiceNotFound => { Code := ErrMethodNotFound, Message := err.Error }
  | _ => { Code := ErrInvalidRequest, Message := err.Error }

/-- The `res` value that `WriteError` builds. -/
def errorResponse (c : CodecRequest) (err : GoError) : serverResponse :=
  { Version := Version, Error := some (toJSONError err), ID := c.request.ID }

/-- WriteError send error response. The `status` argument is not used. -/
def WriteError (c : CodecRequest) (w : ResponseWriter) (_status : Int) (err : GoError) :
    ResponseWriter :=
  writeServerResponse c w (errorResponse c err)

end json2

/-! ## map.go

Reflection is given by what it reports: a type by its kind (pointer or not), its
`Name()` and `PkgPath()`; a method by its name, package path and signature; a
receiver by its type and method set. Receivers are non-nil values. The Unicode
upper-case table `unicode.IsUpper` is an argument `isUpper`. -/

namespace jsonrpc

/-- A `reflect.Type`: a pointer type, or any other type with the strings its
`Name()` and `PkgPath()` return (both empty for an unnamed type). -/
inductive GoType where
  | ptr (elem : GoType) : GoType
  | base (name pkgPath : String) : GoType
  deriving DecidableEq

namespace GoType

/-- The method `Name()`; a pointer type has no name. -/
def Name : GoType → String
  | ptr _ => ""
  | base n _ => n

/-- The method `PkgPath()`; a pointer type has none. -/
def PkgPath : GoType → String
  | ptr _ => ""
  | base _ p => p

end GoType

/-- The `reflect.Type` of `error`. -/
def typeOfError : GoType := GoType.base "error" ""

/-- The `reflect.Type` of `http.Request`. -/
def typeOfRequest : GoType := GoType.base "Request" "net/http"

/-- A `reflect.Method`: `In` lists the inputs of `method.Type`, the receiver
first; `Out` lists its outputs. -/
structure Method where
  Name : String
  PkgPath : String := ""
  In : List GoType
  Out : List GoType
  deriving DecidableEq

/-- A receiver passed to `register`: the object (by a number), its type
`reflect.TypeOf(rcvr)` and the methods `rcvrType.Method(i)` for `i < NumMethod()`. -/
structure Receiver where
  ident : Nat
  type : GoType
  methods : List Method
  deriving DecidableEq

/-- The struct `serviceMethod`. -/
structure serviceMethod where
  method : Method
  argsType : List GoType
  replyType : Option GoType := none
  deriving DecidableEq

/-- The struct `service`; `rcvr` stands for both `rcvr` and `rcvrType`. -/
structure service where
  name : String
  rcvr : Receiver
  methods : GoMap serviceMethod
  deriving DecidableEq

/-- A registry for services; `none` is the nil map. -/
structure serviceMap where
  services : Option (GoMap service) := none
  deriving DecidableEq

/-- The errors `register` builds with `fmt.Errorf`. -/
inductive RegisterError where
  /-- The text "rpc: type %q is not exported". -/
  | notExported (name : String) : RegisterError
  /-- The text "rpc: no service name for type %q". -/
  | noServiceName (t : GoType) : RegisterError
  /-- The text "rpc: %q has no exported methods of suitable type". -/
  | noMethods (name : String) : RegisterError
  /-- The text "rpc: service already defined: %q". -/
  | alreadyDefined (name : String) : RegisterError
  deriving DecidableEq

/-- Whether a string is an exported (upper case) name. The first rune of the empty
string decodes to `utf8.RuneError`, which is not upper case. -/
def isExported (isUpper : Char → Bool) (name : String) : Bool :=
  match name.data with
  | [] => false
  | r :: _ => isUpper r

/-- Whether a type is exported or a builtin. -/
def isExportedOrBuiltin (isUpper : Char → Bool) : GoType → Bool
  | GoType.ptr e => isExportedOrBuiltin isUpper e
  | GoType.base n p => isExported isUpper n || p = ""

/-- One round of the inner loop of `register`: the element type to append for the
input `arg`, or nothing when the round ends in `continue`. -/
def argElem (isUpper : Char → Bool) (arg : GoType) : Option GoType :=
  match arg with
  | GoType.ptr e => if isExportedOrBuiltin isUpper arg then some e else none
  | GoType.base _ _ => none

/-- The slice `args` after the inner loop of `register` over `mtype.In(i)`,
`1 ≤ i < numIn`. -/
def methodArgs (isUpper : Char → Bool) (md : Method) : List GoType :=
  (md.In.drop 1).filterMap (argElem isUpper)

/-- One round of the outer loop of `register` over the methods of the receiver. -/
def registerMethod (isUpper : Char → Bool) (methods : GoMap serviceMethod) (md : Method) :
    GoMap serviceMethod :=
  -- Method must be exported.
  if md.PkgPath ≠ "" then methods
  else if (md.In.length : Int) - 1 ≠ ((methodArgs isUpper md).length : Int) then methods
  -- Method needs two out: mixed, error.
  else if md.Out.length ≠ 2 then methods
  else if md.Out.get? 1 ≠ some typeOfError then methods
  else GoMap.set methods md.Name { method := md, argsType := methodArgs isUpper md }

/-- What the rounds of the outer loop of `register` test, read as one condition on
a method: it is exported, it has a receiver and every input after the receiver is a
pointer to an exported or builtin type, and it has exactly two outputs, the second
being `error`. -/
def Eligible (isUpper : Char → Bool) (md : Method) : Prop :=
  md.PkgPath = "" ∧
  (∃ recv ins, md.In = recv :: ins ∧
    ∀ arg ∈ ins, ∃ e, arg = GoType.ptr e ∧ isExportedOrBuiltin isUpper arg = true) ∧
  md.Out.length = 2 ∧
  md.Out.get? 1 = some typeOfError

/-- The eligibility rule in the words of the specification: the method is exported,
its inputs are the receiver, the transport context and exactly one more input,
which is a pointer to an exported or builtin type, and it has exactly two outputs,
the second being `error`. -/
def eligibleAsSpecified (isUpper : Char → Bool) (md : Method) : Prop :=
  md.PkgPath = "" ∧
  (∃ recv ctx arg, md.In = [recv, ctx, arg] ∧
    ∃ e, arg = GoType.ptr e ∧ isExportedOrBuiltin isUpper arg = true) ∧
  md.Out.length = 2 ∧
  md.Out.get? 1 = some typeOfError

/-- The name `reflect.Indirect(s.rcvr).Type().Name()`. -/
def indirectName (rcvr : Receiver) : String :=
  match rcvr.type with
  | GoType.ptr e => e.Name
  | t => t.Name

/-- The field `s.name` once `register` has settled it: the given name, or the
name of the receiver's type when none is given. -/
def serviceName (rcvr : Receiver) (name : String) : String :=
  if name = "" then indirectName rcvr else name

/-- The map `s.methods` after the loop of `register` over the receiver's methods. -/
def collectMethods (isUpper : Char → Bool) (rcvr : Receiver) : GoMap serviceMethod :=
  rcvr.methods.foldl (registerMethod isUpper) []

/-- The service `s` that `register` stores. -/
def newService (isUpper : Char → Bool) (rcvr : Receiver) (name : String) : service :=
  { name := serviceName rcvr name, rcvr := rcvr, methods := collectMethods isUpper rcvr }

/-- The method `register` of `serviceMap`: adds a new service using reflection to
extract its methods. Returns the registry after the call and the error. -/
def register (isUpper : Char → Bool) (m : serviceMap) (rcvr : Receiver) (name : String) :
    serviceMap × Option RegisterError :=
  if name = "" ∧ isExported isUpper (indirectName rcvr) = false then
    (m, some (RegisterError.notExported (indirectName rcvr)))
  else if serviceName rcvr name = "" then
    (m, some (RegisterError.noServiceName rcvr.type))
  else if (collectMethods isUpper rcvr).length = 0 then
    (m, some (RegisterError.noMethods (serviceName rcvr name)))
  else
    match m.services with
    | none =>
      ({ services := some (GoMap.set [] (serviceName rcvr name) (newService isUpper rcvr name)) },
        none)
    | some table =>
      if GoMap.has table (serviceName rcvr name) then
        (m, some (RegisterError.alreadyDefined (serviceName rcvr name)))
      else
        ({ services := some (GoMap.set table (serviceName rcvr name)
            (newService isUpper rcvr name)) }, none)

/-- The pieces of `s` between occurrences of `sep`, as `strings.Split` cuts them. -/
def splitChars (sep : Char) : List Char → List (List Char)
  | [] => [[]]
  | c :: cs =>
    if c = sep then [] :: splitChars sep cs
    else
      match splitChars sep cs with
      | [] => [[c]]
      | piece :: pieces => (c :: piece) :: pieces

/-- The call `strings.Split(s, ".")`. -/
def splitDot (s : String) : List String :=
  (splitChars '.' s.data).map String.mk

/-- The lookup `m.services[name]`, also on the nil map. -/
def serviceMap.lookup (m : serviceMap) (name : String) : Option service :=
  match m.services with
  | none => none
  | some table => GoMap.get table name

/-- The method `get` of `serviceMap`: returns a registered service given a method
name in the dotted form "Service.Method". -/
def get (m : serviceMap) (method : String) : Except GoError (service × serviceMethod) :=
  if (splitDot method).length ≠ 2 then Except.error GoError.ErrRequestIllFormed
  else
    match m.lookup ((splitDot method).getD 0 "") with
    | none => Except.error GoError.ErrServiceNotFound
    | some svc =>
      match GoMap.get svc.methods ((splitDot method).getD 1 "") with
      | none => Except.error GoError.ErrMethodNotFound
      | some sm => Except.ok (svc, sm)

/-! ### Sample receivers -/

/-- The type `*http.Request`. -/
def ptrRequest : GoType := GoType.ptr typeOfRequest

/-- The type `*mailapi.SendMailRequest`. -/
def ptrSendMailRequest : GoType :=
  GoType.ptr (GoType.base "SendMailRequest" "github.com/l-vitaly/mailapi")

/-- The type `*mailapi.service` of the receiver that `main` registers. -/
def ptrMailService : GoType :=
  GoType.ptr (GoType.base "service" "github.com/l-vitaly/mailapi")

/-- The method `SendMail(r *http.Request, req *SendMailRequest) (bool, error)`. -/
def sendMailMethod : Method :=
  { Name := "SendMail", In := [ptrMailService, ptrRequest, ptrSendMailRequest],
    Out := [GoType.base "bool" "", typeOfError] }

/-- The receiver `mailapi.NewService(...)` that `main` registers as "Service". -/
def mailReceiver : Receiver :=
  { ident := 1, type := ptrMailService, methods := [sendMailMethod] }

/-- A method `Ping() (bool, error)` with no input besides the receiver. -/
def pingMethod : Method :=
  { Name := "Ping", In := [GoType.ptr (GoType.base "Wide" "example")],
    Out := [GoType.base "bool" "", typeOfError] }

/-- A method `SendBoth(r *http.Request, a, b *SendMailRequest) (bool, error)`. -/
def sendBothMethod : Method :=
  { Name := "SendBoth",
    In := [GoType.ptr (GoType.base "Wide" "example"), ptrRequest, ptrSendMailRequest,
           ptrSendMailRequest],
    Out := [GoType.base "bool" "", typeOfError] }

/-- A receiver of type `*example.Wide` with the methods `Ping` and `SendBoth`. -/
def wideReceiver : Receiver :=
  { ident := 2, type := GoType.ptr (GoType.base "Wide" "example"),
    methods := [pingMethod, sendBothMethod] }

/-- A receiver of type `*example.Wide` whose only method is `Ping`. -/
def pingReceiver : Receiver :=
  { ident := 3, type := GoType.ptr (GoType.base "Wide" "example"), methods := [pingMethod] }

end jsonrpc

/-! ## service.go

The `gomail` message is given by what `SendMail` hands to it: the values passed to
`SetHeader`, by field, and the part passed to `SetBody`. Sending is an argument
`dialAndSend`, the method `DialAndSend` of the dialer. -/

namespace mailapi

/-- A `gomail.Dialer` as `gomail.NewDialer(host, port, username, password)` makes it. -/
structure Dialer where
  Host : String
  Port : Int
  Username : String
  Password : String
  deriving DecidableEq

/-- A `gomail.Message` under construction. -/
structure Message where
  header : GoMap (List String) := []
  parts : List (String × String) := []
  deriving DecidableEq

/-- The call `m.SetHeader(field, value...)`. -/
def Message.SetHeader (m : Message) (field : String) (value : List String) : Message :=
  { m with header := GoMap.set m.header field value }

/-- The call `m.SetBody(contentType, body)`. -/
def Message.SetBody (m : Message) (contentType body : String) : Message :=
  { m with parts := [(contentType, body)] }

/-- The struct `SendMailRequest`. -/
structure SendMailRequest where
  Message : String
  deriving DecidableEq

/-- The struct `service`; the fields `from` and `to` are spelled `from_` and `to_`. -/
structure service where
  d : Dialer
  from_ : String
  to_ : String
  subject : String
  deriving DecidableEq

/-- The function `NewService`: its struct literal names the fields `d`, `to` and
`from`, so `subject` keeps the zero value of its type. -/
def NewService (d : Dialer) (to_ : String) (from_ : String) (_subject : String) : service :=
  { d := d, to_ := to_, from_ := from_, subject := "" }

/-- The message `m` that `SendMail` builds before sending it. -/
def composeMessage (s : service) (req : SendMailRequest) : Message :=
  ((((({} : Message).SetHeader "From" [s.from_]).SetHeader "To" [s.to_]).SetHeader
    "Subject" [s.subject]).SetBody "text/html" req.Message)

/-- The method `SendMail` of `service`; the `*http.Request` it is given is not used. -/
def SendMail (dialAndSend : Dialer → Message → Option GoError) (s : service)
    (req : SendMailRequest) : Bool × Option GoError :=
  match dialAndSend s.d (composeMessage s req) with
  | some err => (false, some err)
  | none => (true, none)

end mailapi

/-! ## Theorems -/

open json2 jsonrpc

/-- C1: `writeServerResponse` sends something to the body if and only if the request
id is non-null or the outcome carries an error whose code is `ErrParse` (-32700) or
`ErrInvalidRequest` (-32600); so a notification with a success outcome, or with an
error of any other code, gets no body. -/
theorem writeServerResponse_body_iff (c : CodecRequest) (w : ResponseWriter)
    (res : serverResponse) :
    (w.bodyCount < (writeServerResponse c w res).bodyCount ↔
      (c.request.ID ≠ none ∨
        ∃ e, res.Error = some e ∧ (e.Code = -32700 ∨ e.Code = -32600))) ∧
    (c.request.ID = none → res.Error = none →
      (writeServerResponse c w res).bodyCount = w.bodyCount) ∧
    (∀ e, c.request.ID = none → res.Error = some e → e.Code ≠ -32700 → e.Code ≠ -32600 →
      (writeServerResponse c w res).bodyCount = w.bodyCount) := by
  have hcount : (writeServerResponse c w res).bodyCount =
      if c.request.ID.isSome || isParseOrInvalid res then w.bodyCount + 1 else w.bodyCount := by
    unfold writeServerResponse
    split
    · cases encodeResponse res <;>
        simp [ResponseWriter.bodyCount, ResponseWriter.setHeader] <;> omega
    · simp [ResponseWriter.bodyCount, ResponseWriter.setHeader]
  have hcond : (c.request.ID.isSome || isParseOrInvalid res) = true ↔
      (c.request.ID ≠ none ∨
        ∃ e, res.Error = some e ∧ (e.Code = -32700 ∨ e.Code = -32600)) := by
    cases hid : c.request.ID <;> cases herr : res.Error <;>
      simp [isParseOrInvalid, herr, ErrParse, ErrInvalidRequest]
  refine ⟨?_, ?_, ?_⟩
  · rw [hcount, ← hcond]
    split <;> simp_all
  · intro hid herr
    rw [hcount]
    simp [hid, herr, isParseOrInvalid]
  · intro e hid herr h1 h2
    rw [hcount]
    simp [hid, herr, isParseOrInvalid, ErrParse, ErrInvalidRequest, h1, h2]

/-- C1, at a notification answered with a success: nothing is sent to the body. -/
theorem writeServerResponse_body_iff_witness :
    (writeServerResponse
      { request := { Version := "2.0", Method := "Service.SendMail" },
        err := none, body := Body.doc JSON.null } {}
      { Version := "2.0", Result := some (Iface.json (JSON.bool true)) }).bodyCount = 0 :=
  (writeServerResponse_body_iff
    { request := { Version := "2.0", Method := "Service.SendMail" },
      err := none, body := Body.doc JSON.null } {}
    { Version := "2.0", Result := some (Iface.json (JSON.bool true)) }).2.1 rfl rfl

/-- C2: when decoding the body fails, `newCodecRequest` records an error with code
-32700, `Method` returns that error, and `WriteError` with it writes a response
body that carries code -32700 and the request id; for a body that is not JSON at
all that id is null, and the body is written all the same. -/
theorem parse_failure_yields_parse_error (body : Body) (msg : String) (w : ResponseWriter)
    (status : Int) (h : (jsonUnmarshal body {}).2 = some msg) :
    (newCodecRequest body).err = some (GoError.rpc { Code := -32700, Message := msg }) ∧
    json2.Method (newCodecRequest body) =
      ("", some (GoError.rpc { Code := -32700, Message := msg })) ∧
    WriteError (newCodecRequest body) w status (GoError.rpc { Code := -32700, Message := msg }) =
      { w.setHeader "Content-Type" "application/json; charset=utf-8" with
        written := w.written ++ [JSON.obj [("jsonrpc", JSON.str "2.0"),
          ("error", JSON.obj [("code", JSON.num (-32700)), ("message", JSON.str msg)]),
          ("id", match (newCodecRequest body).request.ID with
                 | none => JSON.null
                 | some raw => raw)]] } ∧
    (∀ m, body = Body.malformed m → (newCodecRequest body).request.ID = none) := by
  have herr : (newCodecRequest body).err =
      some (GoError.rpc { Code := -32700, Message := msg }) := by
    simp [newCodecRequest, h, ErrParse]
  refine ⟨herr, ?_, ?_, ?_⟩
  · simp [json2.Method, herr]
  · simp [WriteError, writeServerResponse, errorResponse, toJSONError, isParseOrInvalid,
      ErrParse, encodeResponse, encodeOptional, encodeError, Version, ResponseWriter.setHeader]
  · intro m hm
    subst hm
    simp [newCodecRequest, jsonUnmarshal]

/-- C2, at the empty body: the error is recorded with code -32700 and the response
written in spite of the null id. -/
theorem parse_failure_yields_parse_error_witness :
    (jsonUnmarshal (Body.malformed "unexpected end of JSON input") {}).2 =
      some "unexpected end of JSON input" ∧
    (WriteError (newCodecRequest (Body.malformed "unexpected end of JSON input")) {} 400
      (GoError.rpc { Code := -32700, Message := "unexpected end of JSON input" })).written =
      [JSON.obj [("jsonrpc", JSON.str "2.0"),
        ("error", JSON.obj [("code", JSON.num (-32700)),
          ("message", JSON.str "unexpected end of JSON input")]),
        ("id", JSON.null)]] :=
  ⟨rfl, by
    rw [(parse_failure_yields_parse_error (Body.malformed "unexpected end of JSON input")
      "unexpected end of JSON input" {} 400 rfl).2.2.1]
    rfl⟩

/-- C3, as stated, fails: the request
`{"jsonrpc":"1.0","method":42,"id":1}` has a `jsonrpc` member other than "2.0",
and decoding yields code -32700, not -32600, because `method` is not a string. -/
theorem version_mismatch_counterexample :
    (jsonUnmarshal (Body.doc (JSON.obj
        [("jsonrpc", JSON.str "1.0"), ("method", JSON.num 42), ("id", JSON.num 1)])) {}).1.Version
      = "1.0" ∧
    (newCodecRequest (Body.doc (JSON.obj
        [("jsonrpc", JSON.str "1.0"), ("method", JSON.num 42), ("id", JSON.num 1)]))).err
      = some (GoError.rpc { Code := -32700, Message :=
          "json: cannot unmarshal number into Go struct field serverRequest.method of type string" }) ∧
    (-32700 : Int) ≠ -32600 :=
  ⟨rfl, rfl, by decide⟩

/-- C3, amended: for every body that decodes without error and whose decoded
`jsonrpc` field is not "2.0" (an absent member leaves it empty), `newCodecRequest`
records an error with code -32600, whatever the method, params and id are, and
`Method` returns it. -/
theorem version_mismatch_invalid_request (body : Body)
    (hok : (jsonUnmarshal body {}).2 = none)
    (hver : (jsonUnmarshal body {}).1.Version ≠ "2.0") :
    (newCodecRequest body).err =
      some (GoError.rpc { Code := -32600, Message := "jsonrpc must be 2.0" }) ∧
    json2.Method (newCodecRequest body) =
      ("", some (GoError.rpc { Code := -32600, Message := "jsonrpc must be 2.0" })) ∧
    (newCodecRequest body).request = (jsonUnmarshal body {}).1 := by
  have herr : (newCodecRequest body).err =
      some (GoError.rpc { Code := -32600, Message := "jsonrpc must be 2.0" }) := by
    simp only [newCodecRequest, hok, Version]
    rw [if_pos hver]
    rfl
  refine ⟨herr, ?_, ?_⟩
  · simp [json2.Method, herr]
  · simp only [newCodecRequest, hok, Version]
    rw [if_pos hver]

/-- C3, amended, at `{"jsonrpc":"1.0","method":"Service.SendMail","id":1}`. -/
theorem version_mismatch_invalid_request_witness :
    (jsonUnmarshal (Body.doc (JSON.obj [("jsonrpc", JSON.str "1.0"),
      ("method", JSON.str "Service.SendMail"), ("id", JSON.num 1)])) {}).2 = none ∧
    (newCodecRequest (Body.doc (JSON.obj [("jsonrpc", JSON.str "1.0"),
      ("method", JSON.str "Service.SendMail"), ("id", JSON.num 1)]))).err =
      some (GoError.rpc { Code := -32600, Message := "jsonrpc must be 2.0" }) :=
  ⟨rfl, (version_mismatch_invalid_request (Body.doc (JSON.obj [("jsonrpc", JSON.str "1.0"),
      ("method", JSON.str "Service.SendMail"), ("id", JSON.num 1)])) rfl (by decide)).1⟩

/-- C4, as stated, fails: on the request
`{"jsonrpc":"2.0","method":"Service.SendMail","params":{"message":"hi"},"id":1}`
a handler error that is not an `*Error` is answered with code -32600, not with
`ErrInternal` (-32603). -/
theorem plain_error_counterexample :
    (WriteError (newCodecRequest (Body.doc (JSON.obj [("jsonrpc", JSON.str "2.0"),
        ("method", JSON.str "Service.SendMail"),
        ("params", JSON.obj [("message", JSON.str "hi")]), ("id", JSON.num 1)])))
      {} 400 (GoError.plain "dial tcp: i/o timeout")).written =
      [JSON.obj [("jsonrpc", JSON.str "2.0"),
        ("error", JSON.obj [("code", JSON.num (-32600)),
          ("message", JSON.str "dial tcp: i/o timeout")]),
        ("id", JSON.num 1)]] ∧
    (-32600 : Int) ≠ ErrInternal :=
  ⟨rfl, by decide⟩

/-- C4, amended: for every error that is not an `*Error` and is neither
`ErrMethodNotFound` nor `ErrServiceNotFound`, `WriteError` builds an error
response whose code is `ErrInvalidRequest` (-32600) and whose message is the text
of the error, and writes it to the body whatever the request id is. -/
theorem plain_error_invalid_request (c : CodecRequest) (w : ResponseWriter) (status : Int)
    (err : GoError) (hrpc : ∀ e, err ≠ GoError.rpc e)
    (hm : err ≠ GoError.ErrMethodNotFound) (hs : err ≠ GoError.ErrServiceNotFound) :
    errorResponse c err =
      { Version := "2.0", Error := some { Code := -32600, Message := err.Error },
        ID := c.request.ID } ∧
    WriteError c w status err =
      { w.setHeader "Content-Type" "application/json; charset=utf-8" with
        written := w.written ++ [JSON.obj [("jsonrpc", JSON.str "2.0"),
          ("error", JSON.obj [("code", JSON.num (-32600)), ("message", JSON.str err.Error)]),
          ("id", match c.request.ID with
                 | none => JSON.null
                 | some raw => raw)]] } := by
  have hj : toJSONError err = { Code := -32600, Message := err.Error } := by
    cases err with
    | rpc e => exact absurd rfl (hrpc e)
    | ErrRequestIllFormed => rfl
    | ErrServiceNotFound => exact absurd rfl hs
    | ErrMethodNotFound => exact absurd rfl hm
    | plain msg => rfl
  constructor
  · simp [errorResponse, hj, Version]
  · simp [WriteError, writeServerResponse, errorResponse, hj, isParseOrInvalid,
      ErrParse, ErrInvalidRequest, encodeResponse, encodeOptional, encodeError, Version,
      ResponseWriter.setHeader]

/-- C4, amended, at a notification whose handler fails with a plain error. -/
theorem plain_error_invalid_request_witness :
    (WriteError
      { request := { Version := "2.0", Method := "Service.SendMail" },
        err := none, body := Body.doc JSON.null } {} 400
      (GoError.plain "dial tcp: i/o timeout")).written =
      [JSON.obj [("jsonrpc", JSON.str "2.0"),
        ("error", JSON.obj [("code", JSON.num (-32600)),
          ("message", JSON.str "dial tcp: i/o timeout")]),
        ("id", JSON.null)]] := by
  rw [(plain_error_invalid_request
    { request := { Version := "2.0", Method := "Service.SendMail" },
      err := none, body := Body.doc JSON.null } {} 400
    (GoError.plain "dial tcp: i/o timeout")
    (fun _ h => GoError.noConfusion h) (fun h => GoError.noConfusion h)
    (fun h => GoError.noConfusion h)).2]
  rfl

/-- C5, as stated, fails: on the request
`{"jsonrpc":"2.0","method":"Service.SendMail","params":[1],"id":1}` the params
cannot be turned into a keyed mapping, and `ReadRequest` returns code -32600, not
`ErrBadParams` (-32602); the data is the raw params. -/
theorem mapping_failure_counterexample :
    (ReadRequest (fun (_ : Option (GoMap JSON)) (a : Unit) => (a, none))
      (newCodecRequest (Body.doc (JSON.obj [("jsonrpc", JSON.str "2.0"),
        ("method", JSON.str "Service.SendMail"),
        ("params", JSON.arr [JSON.num 1]), ("id", JSON.num 1)]))) ()).2.2 =
      some (GoError.rpc
        { Code := -32600,
          Message := "json: cannot unmarshal array into Go value of type map[string]interface \x7b\x7d",
          Data := some (Iface.json (JSON.arr [JSON.num 1])) }) ∧
    (-32600 : Int) ≠ ErrBadParams :=
  ⟨rfl, by decide⟩

/-- C5, amended: on a request that decoded without error and whose params are
present, if producing the keyed mapping fails `ReadRequest` returns (and records)
an error with code `ErrInvalidRequest` (-32600), and if the structural decode into
the target fails it returns (and records) an error with code `ErrBadParams`
(-32602); in both cases the data is the original raw params. -/
theorem ReadRequest_failure_codes {α : Type}
    (decode : Option (GoMap JSON) → α → α × Option String) (c : CodecRequest) (args : α)
    (params : JSON) (hok : c.err = none) (hp : c.request.Params = some params) :
    (∀ msg, unmarshalMap params = Except.error msg →
      (ReadRequest decode c args).2.2 = some (GoError.rpc
        { Code := -32600, Message := msg, Data := some (Iface.json params) }) ∧
      (ReadRequest decode c args).1.err = (ReadRequest decode c args).2.2 ∧
      (ReadRequest decode c args).2.1 = args) ∧
    (∀ data msg, unmarshalMap params = Except.ok data → (decode data args).2 = some msg →
      (ReadRequest decode c args).2.2 = some (GoError.rpc
        { Code := -32602, Message := msg, Data := some (Iface.json params) }) ∧
      (ReadRequest decode c args).1.err = (ReadRequest decode c args).2.2) := by
  constructor
  · intro msg hu
    simp [ReadRequest, hok, hp, hu, ErrInvalidRequest]
  · intro data msg hu hd
    simp [ReadRequest, hok, hp, hu, hd, ErrBadParams]

/-- C5, amended, at a request with params `{"message":7}` and a decoder that
rejects the number. -/
theorem ReadRequest_failure_codes_witness :
    (ReadRequest (fun (_ : Option (GoMap JSON)) (a : String) =>
        (a, some "message: expected type string, got float64"))
      { request := { Version := "2.0", Method := "Service.SendMail",
                     Params := some (JSON.obj [("message", JSON.num 7)]) },
        err := none, body := Body.doc JSON.null } "").2.2 =
      some (GoError.rpc
        { Code := -32602,
          Message := "message: expected type string, got float64",
          Data := some (Iface.json (JSON.obj [("message", JSON.num 7)])) }) :=
  ((ReadRequest_failure_codes
    (fun (_ : Option (GoMap JSON)) (a : String) =>
      (a, some "message: expected type string, got float64"))
    { request := { Version := "2.0", Method := "Service.SendMail",
                   Params := some (JSON.obj [("message", JSON.num 7)]) },
      err := none, body := Body.doc JSON.null } ""
    (JSON.obj [("message", JSON.num 7)]) rfl rfl).2
    (some [("message", JSON.num 7)]) "message: expected type string, got float64"
    rfl rfl).1

/-- C7: `WriteError` answers `ErrServiceNotFound` and `ErrMethodNotFound` with an
error response of code -32601, and `ErrRequestIllFormed` with one of code -32600;
the message of the response is the text of the error. -/
theorem WriteError_registry_codes (c : CodecRequest) (w : ResponseWriter) (status : Int) :
    (∀ err, err = GoError.ErrServiceNotFound ∨ err = GoError.ErrMethodNotFound →
      errorResponse c err =
        { Version := "2.0", Error := some { Code := -32601, Message := err.Error },
          ID := c.request.ID } ∧
      WriteError c w status err = writeServerResponse c w
        { Version := "2.0", Error := some { Code := -32601, Message := err.Error },
          ID := c.request.ID }) ∧
    (errorResponse c GoError.ErrRequestIllFormed =
        { Version := "2.0",
          Error := some { Code := -32600, Message := GoError.ErrRequestIllFormed.Error },
          ID := c.request.ID } ∧
      WriteError c w status GoError.ErrRequestIllFormed = writeServerResponse c w
        { Version := "2.0",
          Error := some { Code := -32600, Message := GoError.ErrRequestIllFormed.Error },
          ID := c.request.ID }) ∧
    GoError.ErrServiceNotFound.Error = "can't find service" ∧
    GoError.ErrMethodNotFound.Error = "rpc: can't find method" ∧
    GoError.ErrRequestIllFormed.Error = "service/method request ill-formed" := by
  refine ⟨?_, ⟨rfl, rfl⟩, rfl, rfl, rfl⟩
  intro err h
  rcases h with h | h <;> subst h <;> exact ⟨rfl, rfl⟩

/-- C7, at a call with id 7 for an unknown service: the body written carries code
-32601 and the text of the error. -/
theorem WriteError_registry_codes_witness :
    (WriteError
      { request := { Version := "2.0", Method := "Nope.SendMail", ID := some (JSON.num 7) },
        err := none, body := Body.doc JSON.null } {} 400
      GoError.ErrServiceNotFound).written =
      [JSON.obj [("jsonrpc", JSON.str "2.0"),
        ("error", JSON.obj [("code", JSON.num (-32601)),
          ("message", JSON.str "can't find service")]),
        ("id", JSON.num 7)]] := by
  rw [((WriteError_registry_codes
    { request := { Version := "2.0", Method := "Nope.SendMail", ID := some (JSON.num 7) },
      err := none, body := Body.doc JSON.null } {} 400).1
    GoError.ErrServiceNotFound (Or.inl rfl)).2]
  rfl

/-! ### Go maps -/

theorem GoMap.has_eq_isSome {α : Type} (m : GoMap α) (k : String) :
    GoMap.has m k = (GoMap.get m k).isSome := by
  induction m with
  | nil => rfl
  | cons p rest ih =>
    obtain ⟨k', v⟩ := p
    by_cases h : k' = k <;> simp [GoMap.has, GoMap.get, h, ih]

theorem GoMap.get_set_self {α : Type} (m : GoMap α) (k : String) (v : α) :
    GoMap.get (GoMap.set m k v) k = some v := by
  induction m with
  | nil => simp [GoMap.set, GoMap.get]
  | cons p rest ih =>
    obtain ⟨k', v'⟩ := p
    by_cases h : k' = k <;> simp [GoMap.set, GoMap.get, h, ih]

theorem GoMap.get_set_of_ne {α : Type} (m : GoMap α) (k k' : String) (v : α) (h : k' ≠ k) :
    GoMap.get (GoMap.set m k v) k' = GoMap.get m k' := by
  induction m with
  | nil =>
    have h' : ¬ k = k' := fun e => h e.symm
    simp [GoMap.set, GoMap.get, h']
  | cons p rest ih =>
    obtain ⟨k1, v1⟩ := p
    by_cases h1 : k1 = k
    · subst h1
      have h' : ¬ k1 = k' := fun e => h e.symm
      simp [GoMap.set, GoMap.get, h']
    · by_cases h2 : k1 = k'
      · subst h2
        simp [GoMap.set, GoMap.get, h1]
      · simp [GoMap.set, GoMap.get, h1, h2, ih]

theorem GoMap.set_ne_nil {α : Type} (m : GoMap α) (k : String) (v : α) :
    GoMap.set m k v ≠ [] := by
  cases m with
  | nil => simp [GoMap.set]
  | cons p rest =>
    obtain ⟨k', v'⟩ := p
    by_cases h : k' = k <;> simp [GoMap.set, h]

theorem GoMap.get_nil {α : Type} (k : String) : GoMap.get ([] : GoMap α) k = none := rfl

/-! ### The loop over the receiver's methods -/

theorem argElem_isSome_iff (isUpper : Char → Bool) (arg : GoType) :
    (argElem isUpper arg).isSome = true ↔
      ∃ e, arg = GoType.ptr e ∧ isExportedOrBuiltin isUpper arg = true := by
  cases arg with
  | ptr e =>
    by_cases h : isExportedOrBuiltin isUpper (GoType.ptr e) = true
    · simp [argElem, h]
    · simp [argElem, h]
  | base n p => simp [argElem]

theorem filterMap_length_eq_iff {α β : Type} (f : α → Option β) (l : List α) :
    (l.filterMap f).length = l.length ↔ ∀ x ∈ l, (f x).isSome = true := by
  induction l with
  | nil => simp
  | cons a rest ih =>
    have hle := List.length_filterMap_le f rest
    cases hfa : f a with
    | none =>
      simp [List.filterMap_cons, hfa]
      omega
    | some b =>
      simp [List.filterMap_cons, hfa, ih]

theorem inputs_ok_iff (isUpper : Char → Bool) (md : Method) :
    (md.In.length : Int) - 1 = ((methodArgs isUpper md).length : Int) ↔
      ∃ recv ins, md.In = recv :: ins ∧
        ∀ arg ∈ ins, ∃ e, arg = GoType.ptr e ∧ isExportedOrBuiltin isUpper arg = true := by
  cases hin : md.In with
  | nil =>
    constructor
    · intro h
      simp only [List.length_nil] at h
      omega
    · rintro ⟨recv, ins, heq, _⟩
      cases heq
  | cons recv ins =>
    have key := filterMap_length_eq_iff (argElem isUpper) ins
    simp only [methodArgs, hin, List.drop_succ_cons, List.drop_zero, List.length_cons]
    constructor
    · intro h
      refine ⟨recv, ins, rfl, ?_⟩
      intro arg harg
      exact (argElem_isSome_iff isUpper arg).1 (key.1 (by omega) arg harg)
    · rintro ⟨recv', ins', heq, hall⟩
      injection heq with h1 h2
      subst h2
      have := key.2 (fun x hx => (argElem_isSome_iff isUpper x).2 (hall x hx))
      omega

theorem registerMethod_of_eligible (isUpper : Char → Bool) (acc : GoMap serviceMethod)
    (md : Method) (h : Eligible isUpper md) :
    registerMethod isUpper acc md =
      GoMap.set acc md.Name { method := md, argsType := methodArgs isUpper md } := by
  obtain ⟨h1, h2, h3, h4⟩ := h
  have h2' := (inputs_ok_iff isUpper md).2 h2
  unfold registerMethod
  rw [if_neg (not_not.2 h1), if_neg (not_not.2 h2'), if_neg (not_not.2 h3),
    if_neg (not_not.2 h4)]

theorem registerMethod_of_not_eligible (isUpper : Char → Bool) (acc : GoMap serviceMethod)
    (md : Method) (h : ¬ Eligible isUpper md) :
    registerMethod isUpper acc md = acc := by
  unfold registerMethod
  by_cases h1 : md.PkgPath ≠ ""
  · rw [if_pos h1]
  rw [if_neg h1]
  by_cases h2 : (md.In.length : Int) - 1 ≠ ((methodArgs isUpper md).length : Int)
  · rw [if_pos h2]
  rw [if_neg h2]
  by_cases h3 : md.Out.length ≠ 2
  · rw [if_pos h3]
  rw [if_neg h3]
  by_cases h4 : md.Out.get? 1 ≠ some typeOfError
  · rw [if_pos h4]
  exact absurd ⟨not_not.1 h1, (inputs_ok_iff isUpper md).1 (not_not.1 h2), not_not.1 h3,
    not_not.1 h4⟩ h

theorem foldl_registerMethod_get (isUpper : Char → Bool) (ms : List Method)
    (acc : GoMap serviceMethod) (n : String) (sm : serviceMethod)
    (h : GoMap.get (ms.foldl (registerMethod isUpper) acc) n = some sm) :
    GoMap.get acc n = some sm ∨
      ∃ md ∈ ms, md.Name = n ∧ Eligible isUpper md ∧
        sm = { method := md, argsType := methodArgs isUpper md } := by
  induction ms generalizing acc with
  | nil => exact Or.inl h
  | cons md rest ih =>
    rw [List.foldl_cons] at h
    rcases ih _ h with h' | ⟨md', hmem, hn, hel, hsm⟩
    · by_cases hel : Eligible isUpper md
      · rw [registerMethod_of_eligible isUpper acc md hel] at h'
        by_cases hn : n = md.Name
        · subst hn
          rw [GoMap.get_set_self] at h'
          exact Or.inr ⟨md, List.mem_cons_self _ _, rfl, hel, (Option.some.inj h').symm⟩
        · rw [GoMap.get_set_of_ne _ _ _ _ hn] at h'
          exact Or.inl h'
      · rw [registerMethod_of_not_eligible isUpper acc md hel] at h'
        exact Or.inl h'
    · exact Or.inr ⟨md', List.mem_cons_of_mem _ hmem, hn, hel, hsm⟩

theorem foldl_registerMethod_isSome (isUpper : Char → Bool) (ms : List Method)
    (acc : GoMap serviceMethod) (n : String)
    (h : (GoMap.get acc n).isSome = true ∨ ∃ md ∈ ms, md.Name = n ∧ Eligible isUpper md) :
    (GoMap.get (ms.foldl (registerMethod isUpper) acc) n).isSome = true := by
  induction ms generalizing acc with
  | nil =>
    rcases h with h | ⟨md, hmem, _⟩
    · exact h
    · cases hmem
  | cons md rest ih =>
    rw [List.foldl_cons]
    apply ih
    by_cases hel : Eligible isUpper md
    · rw [registerMethod_of_eligible isUpper acc md hel]
      by_cases hn : n = md.Name
      · subst hn
        left
        rw [GoMap.get_set_self]
        rfl
      · rw [GoMap.get_set_of_ne _ _ _ _ hn]
        rcases h with h | ⟨md', hmem, hn', hel'⟩
        · exact Or.inl h
        · rcases List.mem_cons.1 hmem with heq | hmem'
          · subst heq
            exact absurd hn'.symm hn
          · exact Or.inr ⟨md', hmem', hn', hel'⟩
    · rw [registerMethod_of_not_eligible isUpper acc md hel]
      rcases h with h | ⟨md', hmem, hn', hel'⟩
      · exact Or.inl h
      · rcases List.mem_cons.1 hmem with heq | hmem'
        · subst heq
          exact absurd hel' hel
        · exact Or.inr ⟨md', hmem', hn', hel'⟩

theorem collectMethods_eq_nil_iff (isUpper : Char → Bool) (rcvr : Receiver) :
    collectMethods isUpper rcvr = [] ↔ ∀ md ∈ rcvr.methods, ¬ Eligible isUpper md := by
  constructor
  · intro h md hmem hel
    have := foldl_registerMethod_isSome isUpper rcvr.methods [] md.Name
      (Or.inr ⟨md, hmem, rfl, hel⟩)
    unfold collectMethods at h
    rw [h] at this
    simp [GoMap.get] at this
  · intro h
    unfold collectMethods
    cases hc : rcvr.methods.foldl (registerMethod isUpper) [] with
    | nil => rfl
    | cons p rest =>
      obtain ⟨k, v⟩ := p
      have hget : GoMap.get (rcvr.methods.foldl (registerMethod isUpper) []) k = some v := by
        rw [hc]
        simp [GoMap.get]
      rcases foldl_registerMethod_get isUpper rcvr.methods [] k v hget with h' | ⟨md, hm, _, hel, _⟩
      · simp [GoMap.get] at h'
      · exact absurd hel (h md hm)

/-! ### Registration -/

theorem serviceName_ne_empty (isUpper : Char → Bool) (rcvr : Receiver) (name : String)
    (h : ¬ (name = "" ∧ isExported isUpper (indirectName rcvr) = false)) :
    serviceName rcvr name ≠ "" := by
  unfold serviceName
  by_cases hn : name = ""
  · rw [if_pos hn]
    intro hi
    apply h
    refine ⟨hn, ?_⟩
    rw [hi]
    rfl
  · rw [if_neg hn]
    exact hn

theorem serviceMap.lookup_isSome_iff (m : serviceMap) (k : String) :
    (m.lookup k).isSome = true ↔ ∃ table, m.services = some table ∧ GoMap.has table k = true := by
  unfold serviceMap.lookup
  cases m.services with
  | none => simp
  | some table => simp [GoMap.has_eq_isSome]

/-- When one of the three failure conditions holds, `register` returns an error
and the registry it was given. -/
theorem register_of_bad (isUpper : Char → Bool) (m : serviceMap) (rcvr : Receiver)
    (name : String)
    (h : (name = "" ∧ isExported isUpper (indirectName rcvr) = false) ∨
      collectMethods isUpper rcvr = [] ∨ (m.lookup (serviceName rcvr name)).isSome = true) :
    (register isUpper m rcvr name).2 ≠ none ∧ (register isUpper m rcvr name).1 = m := by
  unfold register
  by_cases h1 : name = "" ∧ isExported isUpper (indirectName rcvr) = false
  · rw [if_pos h1]
    exact ⟨by simp, rfl⟩
  rw [if_neg h1, if_neg (serviceName_ne_empty isUpper rcvr name h1)]
  by_cases h2 : (collectMethods isUpper rcvr).length = 0
  · rw [if_pos h2]
    exact ⟨by simp, rfl⟩
  rw [if_neg h2]
  rcases h with h | h | h
  · exact absurd h h1
  · rw [h] at h2
    exact absurd rfl h2
  · obtain ⟨table, ht, hhas⟩ := (serviceMap.lookup_isSome_iff m _).1 h
    rw [ht]
    simp [hhas]

/-- When none of the three failure conditions holds, `register` returns no error,
stores the new service under its name and leaves every other name as it was. -/
theorem register_of_good (isUpper : Char → Bool) (m : serviceMap) (rcvr : Receiver)
    (name : String)
    (h1 : ¬ (name = "" ∧ isExported isUpper (indirectName rcvr) = false))
    (h2 : collectMethods isUpper rcvr ≠ [])
    (h3 : m.lookup (serviceName rcvr name) = none) :
    (register isUpper m rcvr name).2 = none ∧
    (register isUpper m rcvr name).1.lookup (serviceName rcvr name) =
      some (newService isUpper rcvr name) ∧
    ∀ k, k ≠ serviceName rcvr name →
      (register isUpper m rcvr name).1.lookup k = m.lookup k := by
  have h2' : ¬ (collectMethods isUpper rcvr).length = 0 := by
    intro hl
    exact h2 (List.length_eq_zero.1 hl)
  unfold register
  rw [if_neg h1, if_neg (serviceName_ne_empty isUpper rcvr name h1), if_neg h2']
  cases hs : m.services with
  | none =>
    refine ⟨rfl, ?_, ?_⟩
    · simp [serviceMap.lookup, GoMap.get_set_self]
    · intro k hk
      simp [serviceMap.lookup, hs, GoMap.set, GoMap.get, Ne.symm hk]
  | some table =>
    have hhas : GoMap.has table (serviceName rcvr name) = false := by
      rw [GoMap.has_eq_isSome]
      simp only [serviceMap.lookup, hs] at h3
      rw [h3]
      rfl
    simp only [hhas]
    refine ⟨rfl, ?_, ?_⟩
    · simp [serviceMap.lookup, GoMap.get_set_self]
    · intro k hk
      simp [serviceMap.lookup, hs, GoMap.get_set_of_ne _ _ _ _ hk]

/-- C6: `get` fails with `ErrRequestIllFormed` exactly when splitting the method
string on "." does not yield exactly two parts; with two parts it fails with
`ErrServiceNotFound` when the first is not a registered service name, fails with
`ErrMethodNotFound` when the service is registered and the second is not one of
its methods, and otherwise returns that service and that method. -/
theorem get_outcomes (m : serviceMap) (method : String) :
    (jsonrpc.get m method = Except.error GoError.ErrRequestIllFormed ↔
      (splitDot method).length ≠ 2) ∧
    (∀ svcName mName, splitDot method = [svcName, mName] →
      (m.lookup svcName = none →
        jsonrpc.get m method = Except.error GoError.ErrServiceNotFound) ∧
      (∀ svc, m.lookup svcName = some svc → GoMap.get svc.methods mName = none →
        jsonrpc.get m method = Except.error GoError.ErrMethodNotFound) ∧
      (∀ svc sm, m.lookup svcName = some svc → GoMap.get svc.methods mName = some sm →
        jsonrpc.get m method = Except.ok (svc, sm))) := by
  constructor
  · constructor
    · intro h hlen
      unfold jsonrpc.get at h
      rw [if_neg (not_not.2 hlen)] at h
      cases hl : m.lookup ((splitDot method).getD 0 "") with
      | none =>
        rw [hl] at h
        simp at h
      | some svc =>
        rw [hl] at h
        cases hg : GoMap.get svc.methods ((splitDot method).getD 1 "") with
        | none =>
          simp only [hg] at h
          simp at h
        | some sm =>
          simp only [hg] at h
          simp at h
    · intro hlen
      unfold jsonrpc.get
      rw [if_pos hlen]
  · intro svcName mName hsplit
    have hlen : ¬ (splitDot method).length ≠ 2 := by simp [hsplit]
    refine ⟨?_, ?_, ?_⟩
    · intro hl
      unfold jsonrpc.get
      rw [if_neg hlen]
      simp [hsplit, hl]
    · intro svc hl hg
      unfold jsonrpc.get
      rw [if_neg hlen]
      simp [hsplit, hl, hg]
    · intro svc sm hl hg
      unfold jsonrpc.get
      rw [if_neg hlen]
      simp [hsplit, hl, hg]

/-- C9: when a service is already registered under the name a `register` call
resolves to, the call returns an error and leaves the registry unchanged: the name
still maps to the first service, and every other entry is untouched. -/
theorem register_duplicate_rejected (isUpper : Char → Bool) (m : serviceMap)
    (rcvr : Receiver) (name : String) (first : service)
    (h : m.lookup (serviceName rcvr name) = some first) :
    (register isUpper m rcvr name).2 ≠ none ∧
    (register isUpper m rcvr name).1 = m ∧
    (register isUpper m rcvr name).1.lookup (serviceName rcvr name) = some first ∧
    ∀ k, (register isUpper m rcvr name).1.lookup k = m.lookup k := by
  have hbad := register_of_bad isUpper m rcvr name (Or.inr (Or.inr (by rw [h]; rfl)))
  refine ⟨hbad.1, hbad.2, ?_, ?_⟩
  · rw [hbad.2]
    exact h
  · intro k
    rw [hbad.2]

theorem register_fails_core (isUpper : Char → Bool) (m : serviceMap) (rcvr : Receiver)
    (name : String) :
    ((register isUpper m rcvr name).2 ≠ none ↔
      (name = "" ∧
        (indirectName rcvr = "" ∨ isExported isUpper (indirectName rcvr) = false)) ∨
      (∀ md ∈ rcvr.methods, ¬ Eligible isUpper md) ∨
      (∃ s, m.lookup (if name = "" then indirectName rcvr else name) = some s)) ∧
    ((register isUpper m rcvr name).2 ≠ none → (register isUpper m rcvr name).1 = m) ∧
    ((register isUpper m rcvr name).2 = none →
      (register isUpper m rcvr name).1.lookup (if name = "" then indirectName rcvr else name) =
        some { name := if name = "" then indirectName rcvr else name, rcvr := rcvr,
               methods := collectMethods isUpper rcvr }) := by
  have hempty : ∀ t : String, t = "" → isExported isUpper t = false := by
    intro t ht
    rw [ht]
    rfl
  by_cases hbad : (name = "" ∧ isExported isUpper (indirectName rcvr) = false) ∨
      collectMethods isUpper rcvr = [] ∨ (m.lookup (serviceName rcvr name)).isSome = true
  · have hr := register_of_bad isUpper m rcvr name hbad
    refine ⟨⟨fun _ => ?_, fun _ => hr.1⟩, fun _ => hr.2, fun hnone => absurd hnone hr.1⟩
    rcases hbad with ⟨hn, he⟩ | hc | hl
    · exact Or.inl ⟨hn, Or.inr he⟩
    · exact Or.inr (Or.inl ((collectMethods_eq_nil_iff isUpper rcvr).1 hc))
    · right
      right
      cases hlk : m.lookup (serviceName rcvr name) with
      | none => rw [hlk] at hl; cases hl
      | some s => exact ⟨s, hlk⟩
  · have h1 : ¬ (name = "" ∧ isExported isUpper (indirectName rcvr) = false) :=
      fun h => hbad (Or.inl h)
    have h2 : collectMethods isUpper rcvr ≠ [] := fun h => hbad (Or.inr (Or.inl h))
    have h3 : m.lookup (serviceName rcvr name) = none := by
      cases hlk : m.lookup (serviceName rcvr name) with
      | none => rfl
      | some s =>
        exact absurd (Or.inr (Or.inr (by rw [hlk]; rfl))) hbad
    have hr := register_of_good isUpper m rcvr name h1 h2 h3
    refine ⟨⟨fun hne => absurd hr.1 hne, ?_⟩, fun hne => absurd hr.1 hne, fun _ => hr.2.1⟩
    rintro (⟨hn, he | he⟩ | hc | ⟨s, hs⟩)
    · exact absurd ⟨hn, hempty _ he⟩ h1
    · exact absurd ⟨hn, he⟩ h1
    · exact absurd ((collectMethods_eq_nil_iff isUpper rcvr).2 hc) h2
    · have : m.lookup (serviceName rcvr name) = some s := hs
      rw [h3] at this
      cases this

/-- C10, as stated, fails: a receiver whose only method is `Ping() (bool, error)`
has no method with exactly one input besides the transport context, its explicit
name "Service" is not empty and the registry is empty, so none of the three
conditions holds under the eligibility rule of the specification; `register`
accepts `Ping` all the same and succeeds, where the claim says it fails. -/
theorem register_ping_only_counterexample :
    pingReceiver.methods = [pingMethod] ∧
    ¬ eligibleAsSpecified Char.isUpper pingMethod ∧
    (register Char.isUpper {} pingReceiver "Service").2 = none ∧
    ((register Char.isUpper {} pingReceiver "Service").1.lookup "Service").map
        (fun s => s.methods.map (fun entry => entry.1)) = some ["Ping"] := by
  refine ⟨rfl, ?_, by decide, by decide⟩
  rintro ⟨_, ⟨recv, ctx, arg, hin, _⟩, _⟩
  simp [pingMethod] at hin

/-- C10, amended: `register` fails if and only if the explicit name is empty and the
receiver's type name is empty or not exported, or the receiver has no method that
the loop of `register` accepts (exported, every input after the receiver a pointer
to an exported or builtin type, exactly two outputs of which the second is the
error type), or a service with the resolved name is already registered. When it
fails the service table is unchanged; when it succeeds the service is stored under
the explicit name, or under the receiver's type name when the explicit name is
empty. The type name is the name of the receiver's type, or of the type it points
to when it is a pointer; a pointer to a pointer has none. -/
theorem register_fails_iff (isUpper : Char → Bool) (m : serviceMap) (rcvr : Receiver)
    (name : String) :
    ((register isUpper m rcvr name).2 ≠ none ↔
      (name = "" ∧
        (indirectName rcvr = "" ∨ isExported isUpper (indirectName rcvr) = false)) ∨
      (∀ md ∈ rcvr.methods, ¬ Eligible isUpper md) ∨
      (∃ s, m.lookup (if name = "" then indirectName rcvr else name) = some s)) ∧
    ((register isUpper m rcvr name).2 ≠ none → (register isUpper m rcvr name).1 = m) ∧
    ((register isUpper m rcvr name).2 = none →
      (register isUpper m rcvr name).1.lookup (if name = "" then indirectName rcvr else name) =
        some { name := if name = "" then indirectName rcvr else name, rcvr := rcvr,
               methods := collectMethods isUpper rcvr }) ∧
    (∀ n p, rcvr.type = GoType.ptr (GoType.base n p) ∨ rcvr.type = GoType.base n p →
      indirectName rcvr = n) ∧
    (∀ e, rcvr.type = GoType.ptr (GoType.ptr e) → indirectName rcvr = "") ∧
    (∀ n p, name = "" →
      rcvr.type = GoType.ptr (GoType.base n p) ∨ rcvr.type = GoType.base n p →
      ((register isUpper m rcvr name).2 ≠ none ↔
        isExported isUpper n = false ∨ (∀ md ∈ rcvr.methods, ¬ Eligible isUpper md) ∨
          ∃ s, m.lookup n = some s) ∧
      ((register isUpper m rcvr name).2 = none →
        (register isUpper m rcvr name).1.lookup n =
          some { name := n, rcvr := rcvr, methods := collectMethods isUpper rcvr })) ∧
    (name ≠ "" →
      ((register isUpper m rcvr name).2 ≠ none ↔
        (∀ md ∈ rcvr.methods, ¬ Eligible isUpper md) ∨ ∃ s, m.lookup name = some s) ∧
      ((register isUpper m rcvr name).2 = none →
        (register isUpper m rcvr name).1.lookup name =
          some { name := name, rcvr := rcvr, methods := collectMethods isUpper rcvr })) := by
  have hname : ∀ n p, rcvr.type = GoType.ptr (GoType.base n p) ∨ rcvr.type = GoType.base n p →
      indirectName rcvr = n := by
    intro n p h
    unfold indirectName
    rcases h with h | h <;> rw [h] <;> rfl
  have hname2 : ∀ e, rcvr.type = GoType.ptr (GoType.ptr e) → indirectName rcvr = "" := by
    intro e h
    unfold indirectName
    rw [h]
    rfl
  have core : ((register isUpper m rcvr name).2 ≠ none ↔
      (name = "" ∧
        (indirectName rcvr = "" ∨ isExported isUpper (indirectName rcvr) = false)) ∨
      (∀ md ∈ rcvr.methods, ¬ Eligible isUpper md) ∨
      (∃ s, m.lookup (if name = "" then indirectName rcvr else name) = some s)) ∧
    ((register isUpper m rcvr name).2 ≠ none → (register isUpper m rcvr name).1 = m) ∧
    ((register isUpper m rcvr name).2 = none →
      (register isUpper m rcvr name).1.lookup (if name = "" then indirectName rcvr else name) =
        some { name := if name = "" then indirectName rcvr else name, rcvr := rcvr,
               methods := collectMethods isUpper rcvr }) := by
    exact register_fails_core isUpper m rcvr name
  have hempty : ∀ t : String, t = "" → isExported isUpper t = false := by
    intro t ht
    rw [ht]
    rfl
  refine ⟨core.1, core.2.1, core.2.2, hname, hname2, ?_, ?_⟩
  · intro n p hn ht
    have hin := hname n p ht
    have hiff := core.1
    have hstore := core.2.2
    rw [if_pos hn, hin] at hiff hstore
    refine ⟨?_, hstore⟩
    rw [hiff]
    constructor
    · rintro (⟨_, he | he⟩ | hc | hs)
      · exact Or.inl (hempty n he)
      · exact Or.inl he
      · exact Or.inr (Or.inl hc)
      · exact Or.inr (Or.inr hs)
    · rintro (he | hc | hs)
      · exact Or.inl ⟨hn, Or.inr he⟩
      · exact Or.inr (Or.inl hc)
      · exact Or.inr (Or.inr hs)
  · intro hn
    have hiff := core.1
    have hstore := core.2.2
    rw [if_neg hn] at hiff hstore
    refine ⟨?_, hstore⟩
    rw [hiff]
    constructor
    · rintro (⟨he, _⟩ | hc | hs)
      · exact absurd he hn
      · exact Or.inl hc
      · exact Or.inr hs
    · rintro (hc | hs)
      · exact Or.inr (Or.inl hc)
      · exact Or.inr (Or.inr hs)

/-- C6, at the registry holding the mail service as "Service": the method string
"Service.SendMail" resolves to that service and its `SendMail` method. -/
theorem get_outcomes_witness :
    splitDot "Service.SendMail" = ["Service", "SendMail"] ∧
    jsonrpc.get (register Char.isUpper {} mailReceiver "Service").1 "Service.SendMail" =
      Except.ok (newService Char.isUpper mailReceiver "Service",
        { method := sendMailMethod, argsType := [typeOfRequest,
            GoType.base "SendMailRequest" "github.com/l-vitaly/mailapi"] }) :=
  ⟨by decide,
    ((get_outcomes (register Char.isUpper {} mailReceiver "Service").1
      "Service.SendMail").2 "Service" "SendMail" (by decide)).2.2
      (newService Char.isUpper mailReceiver "Service")
      { method := sendMailMethod, argsType := [typeOfRequest,
          GoType.base "SendMailRequest" "github.com/l-vitaly/mailapi"] }
      (by decide) (by decide)⟩

/-- C8, as stated, fails: `register` stores the methods `Ping`, which has no input
besides the receiver, and `SendBoth`, which has two inputs besides the transport
context, though neither takes exactly one input besides the context. -/
theorem eligibility_counterexample :
    (register Char.isUpper {} wideReceiver "").2 = none ∧
    ((register Char.isUpper {} wideReceiver "").1.lookup "Wide").map
        (fun s => s.methods.map (fun entry => entry.1)) = some ["Ping", "SendBoth"] ∧
    ¬ eligibleAsSpecified Char.isUpper pingMethod ∧
    ¬ eligibleAsSpecified Char.isUpper sendBothMethod := by
  refine ⟨by decide, by decide, ?_, ?_⟩
  · rintro ⟨_, ⟨recv, ctx, arg, hin, _⟩, _⟩
    simp [pingMethod] at hin
  · rintro ⟨_, ⟨recv, ctx, arg, hin, _⟩, _⟩
    simp [sendBothMethod] at hin

/-- C8, amended: after a successful `register` the stored service holds a method
under a name if and only if the receiver has a method of that name that is
exported, whose inputs after the receiver (any number of them, the transport
context included) are all pointers to exported or builtin types, and that returns
exactly two outputs of which the second is the error type; the entry stored is that
method with the element types of its inputs. Every other method is skipped. -/
theorem register_stores_eligible (isUpper : Char → Bool) (m : serviceMap) (rcvr : Receiver)
    (name : String) (hok : (register isUpper m rcvr name).2 = none) :
    ∃ s, (register isUpper m rcvr name).1.lookup (serviceName rcvr name) = some s ∧
      (∀ n, (GoMap.get s.methods n).isSome = true ↔
        ∃ md ∈ rcvr.methods, md.Name = n ∧ Eligible isUpper md) ∧
      (∀ n sm, GoMap.get s.methods n = some sm →
        ∃ md ∈ rcvr.methods, md.Name = n ∧ Eligible isUpper md ∧
          sm = { method := md, argsType := methodArgs isUpper md }) := by
  by_cases hbad : (name = "" ∧ isExported isUpper (indirectName rcvr) = false) ∨
      collectMethods isUpper rcvr = [] ∨ (m.lookup (serviceName rcvr name)).isSome = true
  · exact absurd hok (register_of_bad isUpper m rcvr name hbad).1
  · have h1 : ¬ (name = "" ∧ isExported isUpper (indirectName rcvr) = false) :=
      fun h => hbad (Or.inl h)
    have h2 : collectMethods isUpper rcvr ≠ [] := fun h => hbad (Or.inr (Or.inl h))
    have h3 : m.lookup (serviceName rcvr name) = none := by
      cases hlk : m.lookup (serviceName rcvr name) with
      | none => rfl
      | some s => exact absurd (Or.inr (Or.inr (by rw [hlk]; rfl))) hbad
    refine ⟨newService isUpper rcvr name,
      (register_of_good isUpper m rcvr name h1 h2 h3).2.1, ?_, ?_⟩
    · intro n
      constructor
      · intro hsome
        cases hg : GoMap.get (newService isUpper rcvr name).methods n with
        | none => rw [hg] at hsome; cases hsome
        | some sm =>
          rcases foldl_registerMethod_get isUpper rcvr.methods [] n sm hg with
            h' | ⟨md, hmem, hn, hel, _⟩
          · cases h'
          · exact ⟨md, hmem, hn, hel⟩
      · intro h
        exact foldl_registerMethod_isSome isUpper rcvr.methods [] n (Or.inr h)
    · intro n sm hg
      rcases foldl_registerMethod_get isUpper rcvr.methods [] n sm hg with h' | h'
      · cases h'
      · exact h'

/-- C8, amended, at the mail service registered as "Service". -/
theorem register_stores_eligible_witness :
    (register Char.isUpper {} mailReceiver "Service").2 = none ∧
    ∃ s, (register Char.isUpper {} mailReceiver "Service").1.lookup
        (serviceName mailReceiver "Service") = some s ∧
      (∀ n, (GoMap.get s.methods n).isSome = true ↔
        ∃ md ∈ mailReceiver.methods, md.Name = n ∧ Eligible Char.isUpper md) ∧
      (∀ n sm, GoMap.get s.methods n = some sm →
        ∃ md ∈ mailReceiver.methods, md.Name = n ∧ Eligible Char.isUpper md ∧
          sm = { method := md, argsType := methodArgs Char.isUpper md }) :=
  ⟨by decide, register_stores_eligible Char.isUpper {} mailReceiver "Service" (by decide)⟩

/-- C9, at a second registration of the mail service under "Service". -/
theorem register_duplicate_rejected_witness :
    (register Char.isUpper {} mailReceiver "Service").1.lookup
        (serviceName mailReceiver "Service") =
      some (newService Char.isUpper mailReceiver "Service") ∧
    (register Char.isUpper (register Char.isUpper {} mailReceiver "Service").1
        mailReceiver "Service").2 ≠ none ∧
    (register Char.isUpper (register Char.isUpper {} mailReceiver "Service").1
        mailReceiver "Service").1 = (register Char.isUpper {} mailReceiver "Service").1 :=
  ⟨by decide,
    (register_duplicate_rejected Char.isUpper
      (register Char.isUpper {} mailReceiver "Service").1 mailReceiver "Service"
      (newService Char.isUpper mailReceiver "Service") (by decide)).1,
    (register_duplicate_rejected Char.isUpper
      (register Char.isUpper {} mailReceiver "Service").1 mailReceiver "Service"
      (newService Char.isUpper mailReceiver "Service") (by decide)).2.1⟩

/-- C10, amended, at two receivers registered without an explicit name: the mail
service, whose type name "service" is not exported, is refused and the table stays
as it was; the receiver of type `*example.Wide` is stored under "Wide". -/
theorem register_fails_iff_witness :
    (register Char.isUpper {} mailReceiver "").2 ≠ none ∧
    (register Char.isUpper {} mailReceiver "").1 = {} ∧
    (register Char.isUpper {} wideReceiver "").2 = none ∧
    (register Char.isUpper {} wideReceiver "").1.lookup "Wide" =
      some { name := "Wide", rcvr := wideReceiver,
             methods := collectMethods Char.isUpper wideReceiver } :=
  ⟨(register_fails_iff Char.isUpper {} mailReceiver "").1.2 (Or.inl ⟨rfl, Or.inr (by decide)⟩),
    (register_fails_iff Char.isUpper {} mailReceiver "").2.1
      ((register_fails_iff Char.isUpper {} mailReceiver "").1.2
        (Or.inl ⟨rfl, Or.inr (by decide)⟩)),
    by decide,
    ((register_fails_iff Char.isUpper {} wideReceiver "").2.2.2.2.2.1 "Wide" "example" rfl
      (Or.inl rfl)).2 (by decide)⟩

/-! ### Responses to protocol errors and notifications -/

theorem writeServerResponse_suppressed (c : CodecRequest) (w : ResponseWriter)
    (res : serverResponse) (hid : c.request.ID = none) (hres : isParseOrInvalid res = false) :
    writeServerResponse c w res =
      (w.setHeader "Content-Type" "application/json; charset=utf-8").setHeader
        "Json-Rpc" "notify" := by
  simp [writeServerResponse, hid, hres]

theorem writeServerResponse_emitted (c : CodecRequest) (w : ResponseWriter)
    (res : serverResponse) (h : (c.request.ID.isSome || isParseOrInvalid res) = true) :
    writeServerResponse c w res =
      match encodeResponse res with
      | Except.ok j =>
        { w.setHeader "Content-Type" "application/json; charset=utf-8" with
          written := w.written ++ [j] }
      | Except.error why =>
        { w.setHeader "Content-Type" "application/json; charset=utf-8" with
          errorCalls := w.errorCalls ++ [(400, why)] } := by
  unfold writeServerResponse
  rw [if_pos h]
  cases encodeResponse res <;> rfl

/-- C12: for every `*Error` value `e` passed to `WriteError`, the response built
carries exactly `e` as its error, with the same code, message and data and no
remapping of the code; on the wire the error object shows that code, that
message and that data. -/
theorem WriteError_keeps_protocol_error (c : CodecRequest) (w : ResponseWriter)
    (status : Int) (e : Error) :
    toJSONError (GoError.rpc e) = e ∧
    errorResponse c (GoError.rpc e) =
      { Version := "2.0", Error := some e, ID := c.request.ID } ∧
    WriteError c w status (GoError.rpc e) =
      writeServerResponse c w { Version := "2.0", Error := some e, ID := c.request.ID } ∧
    (e.Data = none → encodeError e =
      Except.ok (JSON.obj [("code", JSON.num e.Code), ("message", JSON.str e.Message)])) ∧
    (∀ j, e.Data = some (Iface.json j) → encodeError e =
      Except.ok (JSON.obj [("code", JSON.num e.Code), ("message", JSON.str e.Message),
        ("data", j)])) := by
  refine ⟨rfl, rfl, rfl, ?_, ?_⟩
  · intro h
    simp [encodeError, h]
  · intro j h
    simp [encodeError, h, Iface.marshal]

/-- C12, at an application error with code 1001 and data on a call with id 3. -/
theorem WriteError_keeps_protocol_error_witness :
    (WriteError
      { request := { Version := "2.0", Method := "Service.SendMail", ID := some (JSON.num 3) },
        err := none, body := Body.doc JSON.null } {} 400
      (GoError.rpc { Code := 1001, Message := "quota exceeded",
                     Data := some (Iface.json (JSON.num 5)) })).written =
      [JSON.obj [("jsonrpc", JSON.str "2.0"),
        ("error", JSON.obj [("code", JSON.num 1001), ("message", JSON.str "quota exceeded"),
          ("data", JSON.num 5)]),
        ("id", JSON.num 3)]] := by
  rw [(WriteError_keeps_protocol_error
    { request := { Version := "2.0", Method := "Service.SendMail", ID := some (JSON.num 3) },
      err := none, body := Body.doc JSON.null } {} 400
    { Code := 1001, Message := "quota exceeded",
      Data := some (Iface.json (JSON.num 5)) }).2.2.1]
  rfl

/-- C13, as stated, fails: for the request
`{"jsonrpc":"2.0","method":"Service.SendMail","params":{"message":"hi"}}` and an
empty registry, `get` fails with `ErrServiceNotFound` and `WriteError` writes no
body; it sets the header `Json-Rpc: notify` instead. -/
theorem notification_unregistered_counterexample :
    jsonrpc.get {} "Service.SendMail" = Except.error GoError.ErrServiceNotFound ∧
    (WriteError (newCodecRequest (Body.doc (JSON.obj [("jsonrpc", JSON.str "2.0"),
        ("method", JSON.str "Service.SendMail"),
        ("params", JSON.obj [("message", JSON.str "hi")])])))
      {} 400 GoError.ErrServiceNotFound) =
      { header := [("Content-Type", "application/json; charset=utf-8"), ("Json-Rpc", "notify")],
        written := [], errorCalls := [] } :=
  ⟨rfl, rfl⟩

/-- C13, amended: for the request
`{"jsonrpc":"2.0","method":"Service.SendMail","params":{"message":"hi"}}` with the
id omitted, no body is written on success, and when `get` fails for the method
(service or method not found) no body is written either: the response built
carries error code -32601 and id null, and the header `Json-Rpc: notify` is set. -/
theorem notification_example (m : serviceMap) (w : ResponseWriter) (status : Int)
    (reply : Option Iface) (err : GoError)
    (hget : jsonrpc.get m "Service.SendMail" = Except.error err) :
    (newCodecRequest (Body.doc (JSON.obj [("jsonrpc", JSON.str "2.0"),
        ("method", JSON.str "Service.SendMail"),
        ("params", JSON.obj [("message", JSON.str "hi")])]))).err = none ∧
    (WriteResponse (newCodecRequest (Body.doc (JSON.obj [("jsonrpc", JSON.str "2.0"),
        ("method", JSON.str "Service.SendMail"),
        ("params", JSON.obj [("message", JSON.str "hi")])]))) w reply).bodyCount
      = w.bodyCount ∧
    errorResponse (newCodecRequest (Body.doc (JSON.obj [("jsonrpc", JSON.str "2.0"),
        ("method", JSON.str "Service.SendMail"),
        ("params", JSON.obj [("message", JSON.str "hi")])]))) err =
      { Version := "2.0", Error := some { Code := -32601, Message := err.Error },
        ID := none } ∧
    (WriteError (newCodecRequest (Body.doc (JSON.obj [("jsonrpc", JSON.str "2.0"),
        ("method", JSON.str "Service.SendMail"),
        ("params", JSON.obj [("message", JSON.str "hi")])]))) w status err).bodyCount
      = w.bodyCount ∧
    GoMap.get (WriteError (newCodecRequest (Body.doc (JSON.obj [("jsonrpc", JSON.str "2.0"),
        ("method", JSON.str "Service.SendMail"),
        ("params", JSON.obj [("message", JSON.str "hi")])]))) w status err).header "Json-Rpc"
      = some "notify" := by
  have hsplit : splitDot "Service.SendMail" = ["Service", "SendMail"] := by decide
  have herr : err = GoError.ErrServiceNotFound ∨ err = GoError.ErrMethodNotFound := by
    unfold jsonrpc.get at hget
    rw [hsplit] at hget
    simp only [List.length_cons, List.length_nil] at hget
    rw [if_neg (by decide)] at hget
    cases hl : m.lookup ((["Service", "SendMail"] : List String).getD 0 "") with
    | none =>
      rw [hl] at hget
      left
      injection hget with h
      exact h.symm
    | some svc =>
      rw [hl] at hget
      cases hg : GoMap.get svc.methods ((["Service", "SendMail"] : List String).getD 1 "") with
      | none =>
        simp only [hg] at hget
        right
        injection hget with h
        exact h.symm
      | some sm =>
        simp only [hg] at hget
        cases hget
  have hsup : ∀ res : serverResponse, isParseOrInvalid res = false →
      writeServerResponse (newCodecRequest (Body.doc (JSON.obj [("jsonrpc", JSON.str "2.0"),
        ("method", JSON.str "Service.SendMail"),
        ("params", JSON.obj [("message", JSON.str "hi")])]))) w res =
      (w.setHeader "Content-Type" "application/json; charset=utf-8").setHeader
        "Json-Rpc" "notify" :=
    fun res hres => writeServerResponse_suppressed _ w res rfl hres
  have hcode : isParseOrInvalid (errorResponse (newCodecRequest (Body.doc (JSON.obj
      [("jsonrpc", JSON.str "2.0"), ("method", JSON.str "Service.SendMail"),
        ("params", JSON.obj [("message", JSON.str "hi")])]))) err) = false := by
    rcases herr with h | h <;> subst h <;> rfl
  refine ⟨rfl, ?_, ?_, ?_, ?_⟩
  · unfold WriteResponse
    rw [hsup (successResponse _ reply) rfl]
    rfl
  · rcases herr with h | h <;> subst h <;> rfl
  · unfold WriteError
    rw [hsup _ hcode]
    rfl
  · unfold WriteError
    rw [hsup _ hcode]
    simp [ResponseWriter.setHeader, GoMap.get_set_self]

/-- C13, amended, at the empty registry. -/
theorem notification_example_witness :
    jsonrpc.get {} "Service.SendMail" = Except.error GoError.ErrServiceNotFound ∧
    (WriteError (newCodecRequest (Body.doc (JSON.obj [("jsonrpc", JSON.str "2.0"),
        ("method", JSON.str "Service.SendMail"),
        ("params", JSON.obj [("message", JSON.str "hi")])])))
      {} 400 GoError.ErrServiceNotFound).bodyCount = 0 :=
  ⟨rfl, (notification_example {} {} 400 none GoError.ErrServiceNotFound rfl).2.2.2.1⟩

/-! ### Reading the params -/

/-- C14, on the code: on a request that decoded without error, params given by
position (a JSON array) are rejected by `ReadRequest` with code -32600 and the
target is left as it was, whatever the array holds; params given by name (a JSON
object) are handed to the structural decode and accepted when it accepts them. -/
theorem ReadRequest_param_forms {α : Type}
    (decode : Option (GoMap JSON) → α → α × Option String) (c : CodecRequest) (args : α)
    (hok : c.err = none) :
    (∀ items, c.request.Params = some (JSON.arr items) →
      (ReadRequest decode c args).2.2 = some (GoError.rpc
        { Code := -32600,
          Message := "json: cannot unmarshal array into Go value of type map[string]interface \x7b\x7d",
          Data := some (Iface.json (JSON.arr items)) }) ∧
      (ReadRequest decode c args).2.1 = args) ∧
    (∀ members, c.request.Params = some (JSON.obj members) →
      (decode (some (members.foldl (fun m kv => GoMap.set m kv.1 kv.2) [])) args).2 = none →
      (ReadRequest decode c args).2.2 = none ∧
      (ReadRequest decode c args).2.1 =
        (decode (some (members.foldl (fun m kv => GoMap.set m kv.1 kv.2) [])) args).1) := by
  constructor
  · intro items hp
    simp [ReadRequest, hok, hp, unmarshalMap, ErrInvalidRequest, JSON.kindName]
  · intro members hp hd
    simp [ReadRequest, hok, hp, unmarshalMap, hd]

/-- C14, at the request
`{"jsonrpc":"2.0","method":"Service.SendMail","params":["hi"],"id":1}` with a
decoder that would accept anything: the by-position params are rejected. -/
theorem ReadRequest_param_forms_witness :
    (newCodecRequest (Body.doc (JSON.obj [("jsonrpc", JSON.str "2.0"),
      ("method", JSON.str "Service.SendMail"),
      ("params", JSON.arr [JSON.str "hi"]), ("id", JSON.num 1)]))).err = none ∧
    (ReadRequest (fun (_ : Option (GoMap JSON)) (_ : String) => ("hi", none))
      (newCodecRequest (Body.doc (JSON.obj [("jsonrpc", JSON.str "2.0"),
        ("method", JSON.str "Service.SendMail"),
        ("params", JSON.arr [JSON.str "hi"]), ("id", JSON.num 1)]))) "").2.2 =
      some (GoError.rpc
        { Code := -32600,
          Message := "json: cannot unmarshal array into Go value of type map[string]interface \x7b\x7d",
          Data := some (Iface.json (JSON.arr [JSON.str "hi"])) }) :=
  ⟨rfl, ((ReadRequest_param_forms (fun (_ : Option (GoMap JSON)) (_ : String) => ("hi", none))
    (newCodecRequest (Body.doc (JSON.obj [("jsonrpc", JSON.str "2.0"),
      ("method", JSON.str "Service.SendMail"),
      ("params", JSON.arr [JSON.str "hi"]), ("id", JSON.num 1)]))) "" rfl).1
    [JSON.str "hi"] rfl).1⟩

/-! ### Headers -/

/-- C17: `writeServerResponse` sets the header `Content-Type` to
`application/json; charset=utf-8` in every case; when it sends nothing to the body
it sets `Json-Rpc: notify`, and when it sends something it leaves that header as
it found it, so on a writer without it the marker is present if and only if
nothing was sent to the body. -/
theorem writeServerResponse_headers (c : CodecRequest) (w : ResponseWriter)
    (res : serverResponse) :
    GoMap.get (writeServerResponse c w res).header "Content-Type" =
      some "application/json; charset=utf-8" ∧
    ((writeServerResponse c w res).bodyCount = w.bodyCount →
      GoMap.get (writeServerResponse c w res).header "Json-Rpc" = some "notify") ∧
    (w.bodyCount < (writeServerResponse c w res).bodyCount →
      GoMap.get (writeServerResponse c w res).header "Json-Rpc" =
        GoMap.get w.header "Json-Rpc") ∧
    (GoMap.get w.header "Json-Rpc" = none →
      (GoMap.get (writeServerResponse c w res).header "Json-Rpc" = some "notify" ↔
        (writeServerResponse c w res).bodyCount = w.bodyCount)) := by
  have hne : ("Json-Rpc" : String) ≠ "Content-Type" := by decide
  by_cases h : (c.request.ID.isSome || isParseOrInvalid res) = true
  · have hw := writeServerResponse_emitted c w res h
    have hhead : (writeServerResponse c w res).header =
        GoMap.set w.header "Content-Type" "application/json; charset=utf-8" := by
      rw [hw]
      cases encodeResponse res <;> rfl
    have hcount : (writeServerResponse c w res).bodyCount = w.bodyCount + 1 := by
      rw [hw]
      cases encodeResponse res <;>
        simp [ResponseWriter.bodyCount, ResponseWriter.setHeader] <;> omega
    have hmark : GoMap.get (writeServerResponse c w res).header "Json-Rpc" =
        GoMap.get w.header "Json-Rpc" := by
      rw [hhead, GoMap.get_set_of_ne _ _ _ _ hne]
    refine ⟨?_, ?_, ?_, ?_⟩
    · rw [hhead, GoMap.get_set_self]
    · intro hc
      omega
    · intro _
      exact hmark
    · intro hnone
      rw [hmark, hnone]
      constructor
      · intro hc
        cases hc
      · intro hc
        omega
  · have hb : (c.request.ID.isSome || isParseOrInvalid res) = false := by
      cases hv : (c.request.ID.isSome || isParseOrInvalid res)
      · rfl
      · exact absurd hv h
    have hid : c.request.ID = none := by
      cases hi : c.request.ID with
      | none => rfl
      | some v => simp [hi] at hb
    have hres : isParseOrInvalid res = false := by
      cases hr : isParseOrInvalid res with
      | false => rfl
      | true => simp [hr] at hb
    have hw := writeServerResponse_suppressed c w res hid hres
    have hcount : (writeServerResponse c w res).bodyCount = w.bodyCount := by
      rw [hw]
      rfl
    have hmark : GoMap.get (writeServerResponse c w res).header "Json-Rpc" = some "notify" := by
      rw [hw]
      simp [ResponseWriter.setHeader, GoMap.get_set_self]
    refine ⟨?_, fun _ => hmark, ?_, fun _ => ⟨fun _ => hcount, fun _ => hmark⟩⟩
    · rw [hw]
      simp only [ResponseWriter.setHeader]
      rw [GoMap.get_set_of_ne _ _ _ _ hne.symm, GoMap.get_set_self]
    · intro hc
      omega

/-- C17, at a notification answered with a success on a fresh writer. -/
theorem writeServerResponse_headers_witness :
    GoMap.get (writeServerResponse
      { request := { Version := "2.0", Method := "Service.SendMail" },
        err := none, body := Body.doc JSON.null } {}
      { Version := "2.0", Result := some (Iface.json (JSON.bool true)) }).header "Json-Rpc" =
      some "notify" :=
  (writeServerResponse_headers
    { request := { Version := "2.0", Method := "Service.SendMail" },
      err := none, body := Body.doc JSON.null } {}
    { Version := "2.0", Result := some (Iface.json (JSON.bool true)) }).2.1 rfl

/-! ### The mail service -/

/-- C18, on the code: `NewService(d, to, from, subject)` returns a service whose
`to`, `from` and `d` fields equal the arguments, but whose `subject` field is
empty whatever subject is given, so the message `SendMail` sends has the empty
string as its `Subject` header. -/
theorem NewService_drops_subject (d : mailapi.Dialer) (to_ from_ subject : String)
    (req : mailapi.SendMailRequest) :
    (mailapi.NewService d to_ from_ subject).d = d ∧
    (mailapi.NewService d to_ from_ subject).to_ = to_ ∧
    (mailapi.NewService d to_ from_ subject).from_ = from_ ∧
    (mailapi.NewService d to_ from_ subject).subject = "" ∧
    GoMap.get (mailapi.composeMessage (mailapi.NewService d to_ from_ subject) req).header
      "Subject" = some [""] ∧
    GoMap.get (mailapi.composeMessage (mailapi.NewService d to_ from_ subject) req).header
      "To" = some [to_] ∧
    GoMap.get (mailapi.composeMessage (mailapi.NewService d to_ from_ subject) req).header
      "From" = some [from_] := by
  refine ⟨rfl, rfl, rfl, rfl, ?_, ?_, ?_⟩ <;>
    simp [mailapi.composeMessage, mailapi.NewService, mailapi.Message.SetHeader,
      mailapi.Message.SetBody, GoMap.set, GoMap.get]

/-! ### Lookup after registration -/

theorem register_good_of_ok (isUpper : Char → Bool) (m : serviceMap) (rcvr : Receiver)
    (name : String) (hok : (register isUpper m rcvr name).2 = none) :
    ¬ (name = "" ∧ isExported isUpper (indirectName rcvr) = false) ∧
    collectMethods isUpper rcvr ≠ [] ∧
    m.lookup (serviceName rcvr name) = none := by
  have hbad : ¬ ((name = "" ∧ isExported isUpper (indirectName rcvr) = false) ∨
      collectMethods isUpper rcvr = [] ∨
      (m.lookup (serviceName rcvr name)).isSome = true) :=
    fun h => (register_of_bad isUpper m rcvr name h).1 hok
  refine ⟨fun h => hbad (Or.inl h), fun h => hbad (Or.inr (Or.inl h)), ?_⟩
  cases hlk : m.lookup (serviceName rcvr name) with
  | none => rfl
  | some s => exact absurd (Or.inr (Or.inr (by rw [hlk]; rfl))) hbad

theorem list_eq_pair_of_length {α : Type} (l : List α) (d : α) (h : l.length = 2) :
    l = [l.getD 0 d, l.getD 1 d] := by
  match l, h with
  | [a, b], _ => rfl

theorem splitChars_of_not_mem (sep : Char) (l : List Char) (h : sep ∉ l) :
    splitChars sep l = [l] := by
  induction l with
  | nil => rfl
  | cons c cs ih =>
    have hc : ¬ c = sep := fun e => h (by rw [e]; exact List.mem_cons_self _ _)
    have hcs : sep ∉ cs := fun hm => h (List.mem_cons_of_mem _ hm)
    simp [splitChars, hc, ih hcs]

theorem splitChars_append_sep (sep : Char) (a b : List Char) (h : sep ∉ a) :
    splitChars sep (a ++ sep :: b) = a :: splitChars sep b := by
  induction a with
  | nil => simp [splitChars]
  | cons c cs ih =>
    have hc : ¬ c = sep := fun e => h (by rw [e]; exact List.mem_cons_self _ _)
    have hcs : sep ∉ cs := fun hm => h (List.mem_cons_of_mem _ hm)
    simp [splitChars, hc, ih hcs]

theorem splitDot_dotted (svc mth : String) (hs : '.' ∉ svc.data) (hm : '.' ∉ mth.data) :
    splitDot (svc ++ "." ++ mth) = [svc, mth] := by
  have hdata : (svc ++ "." ++ mth).data = svc.data ++ '.' :: mth.data := by
    simp [String.data_append]
  unfold splitDot
  rw [hdata, splitChars_append_sep '.' _ _ hs, splitChars_of_not_mem '.' _ hm]
  rfl

theorem eq_of_name_eq_of_nodup (ms : List Method) (h : (ms.map Method.Name).Nodup)
    (a b : Method) (ha : a ∈ ms) (hb : b ∈ ms) (hn : a.Name = b.Name) : a = b :=
  List.inj_on_of_nodup_map h ha hb hn

/-- C11, as stated, fails: the mail service registers without error under the name
"Mail.Service", and `get` on "Mail.Service.SendMail" then fails with
`ErrRequestIllFormed`, because the string splits into three parts. -/
theorem get_after_register_counterexample :
    (register Char.isUpper {} mailReceiver "Mail.Service").2 = none ∧
    Eligible Char.isUpper sendMailMethod ∧
    jsonrpc.get (register Char.isUpper {} mailReceiver "Mail.Service").1
      ("Mail.Service" ++ "." ++ "SendMail") = Except.error GoError.ErrRequestIllFormed :=
  ⟨by decide,
    ⟨rfl, ⟨ptrMailService, [ptrRequest, ptrSendMailRequest], rfl, by
      intro arg harg
      simp only [List.mem_cons, List.mem_singleton, List.not_mem_nil, or_false] at harg
      rcases harg with h | h
      · exact ⟨typeOfRequest, h, by rw [h]; decide⟩
      · exact ⟨GoType.base "SendMailRequest" "github.com/l-vitaly/mailapi", h, by
          rw [h]; decide⟩⟩, rfl, rfl⟩,
    rfl⟩

/-- C11, amended: for every service successfully registered under a name S that
contains no "." and every eligible method M of it (method names being distinct
and free of "."), `get` on S + "." + M succeeds and returns that service and that
method; `get` only reads the registry, so repeated calls return the same pair. -/
theorem get_after_register (isUpper : Char → Bool) (m : serviceMap) (rcvr : Receiver)
    (name : String) (md : Method)
    (hok : (register isUpper m rcvr name).2 = none)
    (hmem : md ∈ rcvr.methods) (hel : Eligible isUpper md)
    (hnodup : (rcvr.methods.map Method.Name).Nodup)
    (hS : '.' ∉ (serviceName rcvr name).data) (hM : '.' ∉ md.Name.data) :
    jsonrpc.get (register isUpper m rcvr name).1 (serviceName rcvr name ++ "." ++ md.Name) =
      Except.ok ({ name := serviceName rcvr name, rcvr := rcvr,
                   methods := collectMethods isUpper rcvr },
                 { method := md, argsType := methodArgs isUpper md }) := by
  obtain ⟨h1, h2, h3⟩ := register_good_of_ok isUpper m rcvr name hok
  have hlook := (register_of_good isUpper m rcvr name h1 h2 h3).2.1
  have hsplit := splitDot_dotted (serviceName rcvr name) md.Name hS hM
  have hsome := foldl_registerMethod_isSome isUpper rcvr.methods [] md.Name
    (Or.inr ⟨md, hmem, rfl, hel⟩)
  cases hg : GoMap.get (rcvr.methods.foldl (registerMethod isUpper) []) md.Name with
  | none =>
    rw [hg] at hsome
    cases hsome
  | some sm =>
    rcases foldl_registerMethod_get isUpper rcvr.methods [] md.Name sm hg with
      h' | ⟨md', hmem', hn', _, hsm⟩
    · cases h'
    · have hmd : md' = md := eq_of_name_eq_of_nodup rcvr.methods hnodup md' md hmem' hmem hn'
      subst hmd
      unfold jsonrpc.get
      rw [hsplit]
      simp only [List.length_cons, List.length_nil]
      rw [if_neg (by decide)]
      simp only [List.getD_cons_zero, List.getD_cons_succ]
      rw [hlook]
      simp only [newService, collectMethods]
      rw [hg, hsm]

/-- C11, amended, at the mail service registered as "Service". -/
theorem get_after_register_witness :
    (register Char.isUpper {} mailReceiver "Service").2 = none ∧
    jsonrpc.get (register Char.isUpper {} mailReceiver "Service").1
      (serviceName mailReceiver "Service" ++ "." ++ sendMailMethod.Name) =
      Except.ok ({ name := serviceName mailReceiver "Service", rcvr := mailReceiver,
                   methods := collectMethods Char.isUpper mailReceiver },
                 { method := sendMailMethod,
                   argsType := methodArgs Char.isUpper sendMailMethod }) :=
  ⟨by decide,
    get_after_register Char.isUpper {} mailReceiver "Service" sendMailMethod (by decide)
      (by decide)
      ⟨rfl, ⟨ptrMailService, [ptrRequest, ptrSendMailRequest], rfl, by
        intro arg harg
        simp only [List.mem_cons, List.mem_singleton, List.not_mem_nil, or_false] at harg
        rcases harg with h | h
        · exact ⟨typeOfRequest, h, by rw [h]; decide⟩
        · exact ⟨GoType.base "SendMailRequest" "github.com/l-vitaly/mailapi", h, by
            rw [h]; decide⟩⟩, rfl, rfl⟩
      (by decide) (by decide) (by decide)⟩

/-- C19: a successful `register` under the name S changes the registry only at S:
for every method string that does not split into S and a method name, `get`
returns after the registration what it returned before it. -/
theorem register_frame (isUpper : Char → Bool) (m : serviceMap) (rcvr : Receiver)
    (name : String) (method : String)
    (hok : (register isUpper m rcvr name).2 = none)
    (hpart : ∀ mName, splitDot method ≠ [serviceName rcvr name, mName]) :
    jsonrpc.get (register isUpper m rcvr name).1 method = jsonrpc.get m method := by
  obtain ⟨h1, h2, h3⟩ := register_good_of_ok isUpper m rcvr name hok
  have hframe := (register_of_good isUpper m rcvr name h1 h2 h3).2.2
  unfold jsonrpc.get
  by_cases hlen : (splitDot method).length ≠ 2
  · rw [if_pos hlen, if_pos hlen]
  · rw [if_neg hlen, if_neg hlen]
    have hpair := list_eq_pair_of_length (splitDot method) "" (not_not.1 hlen)
    have hne : (splitDot method).getD 0 "" ≠ serviceName rcvr name := by
      intro he
      apply hpart ((splitDot method).getD 1 "")
      rw [← he]
      exact hpair
    rw [hframe _ hne]

/-- C19, at the mail service added as "Service" to a registry that already holds
it as "Mail": the lookup of "Mail.SendMail" is as before. -/
theorem register_frame_witness :
    (register Char.isUpper (register Char.isUpper {} mailReceiver "Mail").1
      mailReceiver "Service").2 = none ∧
    jsonrpc.get (register Char.isUpper (register Char.isUpper {} mailReceiver "Mail").1
      mailReceiver "Service").1 "Mail.SendMail" =
    jsonrpc.get (register Char.isUpper {} mailReceiver "Mail").1 "Mail.SendMail" :=
  ⟨by decide,
    register_frame Char.isUpper (register Char.isUpper {} mailReceiver "Mail").1
      mailReceiver "Service" "Mail.SendMail" (by decide) (fun mName h => by
        have hs : splitDot "Mail.SendMail" = ["Mail", "SendMail"] := by decide
        rw [hs] at h
        simp [serviceName] at h)⟩

/-! ### The id and the params of a decoded request -/

theorem newCodecRequest_request (body : Body) :
    (newCodecRequest body).request = (jsonUnmarshal body {}).1 := by
  unfold newCodecRequest
  cases (jsonUnmarshal body {}).2 with
  | some msg => rfl
  | none =>
    by_cases hv : (jsonUnmarshal body {}).1.Version ≠ Version
    · simp only [if_pos hv]
    · simp only [if_neg hv]

theorem equalFold_other (f g k : String) (hf : equalFold f k = true)
    (hfg : (f.data.map foldRune == g.data.map foldRune) = false) :
    equalFold g k = false := by
  unfold equalFold at hf ⊢
  have hk : k.data.map foldRune = f.data.map foldRune := by simpa using hf
  rw [hk]
  exact hfg

theorem storeMember_ID (st : serverRequest × Option String) (kv : String × JSON) :
    (storeMember st kv).1.ID =
      if equalFold "id" kv.1 = true then storeRaw kv.2 else st.1.ID := by
  unfold storeMember
  by_cases h1 : equalFold "jsonrpc" kv.1 = true
  · simp [h1, equalFold_other "jsonrpc" "id" kv.1 h1 (by decide)]
  · by_cases h2 : equalFold "method" kv.1 = true
    · simp [h1, h2, equalFold_other "method" "id" kv.1 h2 (by decide)]
    · by_cases h3 : equalFold "params" kv.1 = true
      · simp [h1, h2, h3, equalFold_other "params" "id" kv.1 h3 (by decide)]
      · by_cases h4 : equalFold "id" kv.1 = true <;> simp [h1, h2, h3, h4]

theorem storeMember_Params (st : serverRequest × Option String) (kv : String × JSON) :
    (storeMember st kv).1.Params =
      if equalFold "params" kv.1 = true then storeRaw kv.2 else st.1.Params := by
  unfold storeMember
  by_cases h1 : equalFold "jsonrpc" kv.1 = true
  · simp [h1, equalFold_other "jsonrpc" "params" kv.1 h1 (by decide)]
  · by_cases h2 : equalFold "method" kv.1 = true
    · simp [h1, h2, equalFold_other "method" "params" kv.1 h2 (by decide)]
    · by_cases h3 : equalFold "params" kv.1 = true
      · simp [h1, h2, h3]
      · by_cases h4 : equalFold "id" kv.1 = true <;> simp [h1, h2, h3, h4]

theorem foldl_storeMember_ID (members : List (String × JSON))
    (st : serverRequest × Option String)
    (h : ∀ kv ∈ members, equalFold "id" kv.1 = false) :
    (members.foldl storeMember st).1.ID = st.1.ID := by
  induction members generalizing st with
  | nil => rfl
  | cons kv rest ih =>
    rw [List.foldl_cons, ih _ (fun x hx => h x (List.mem_cons_of_mem _ hx)), storeMember_ID]
    simp [h kv (List.mem_cons_self _ _)]

theorem foldl_storeMember_Params (members : List (String × JSON))
    (st : serverRequest × Option String)
    (h : ∀ kv ∈ members, equalFold "params" kv.1 = false) :
    (members.foldl storeMember st).1.Params = st.1.Params := by
  induction members generalizing st with
  | nil => rfl
  | cons kv rest ih =>
    rw [List.foldl_cons, ih _ (fun x hx => h x (List.mem_cons_of_mem _ hx)), storeMember_Params]
    simp [h kv (List.mem_cons_self _ _)]

/-- C15: every response built by `WriteResponse` or `WriteError` carries as its id
the id of the request it answers, and the document written to the body ends with
that raw value as its `id` member, or with `null` when the request has none. The id
of the request is nil when the body could not be parsed or has no `id` member, and
otherwise what the last `id` member holds: nil for `null`, else the raw value. -/
theorem response_echoes_id (c : CodecRequest) (reply : Option Iface) (err : GoError) :
    (successResponse c reply).ID = c.request.ID ∧
    (errorResponse c err).ID = c.request.ID ∧
    (∀ res j, encodeResponse res = Except.ok j →
      ∃ front, j = JSON.obj (front ++
        [("id", match res.ID with
                | none => JSON.null
                | some raw => raw)])) ∧
    (∀ msg, (newCodecRequest (Body.malformed msg)).request.ID = none) ∧
    (∀ members, (∀ kv ∈ members, equalFold "id" kv.1 = false) →
      (newCodecRequest (Body.doc (JSON.obj members))).request.ID = none) ∧
    (∀ before after key v, equalFold "id" key = true →
      (∀ kv ∈ after, equalFold "id" kv.1 = false) →
      (newCodecRequest (Body.doc (JSON.obj (before ++ (key, v) :: after)))).request.ID =
        if v.isNull then none else some v) := by
  refine ⟨rfl, rfl, ?_, ?_, ?_, ?_⟩
  · intro res j hj
    unfold encodeResponse at hj
    cases hmid : encodeOptional res with
    | error why =>
      rw [hmid] at hj
      cases hj
    | ok mid =>
      rw [hmid] at hj
      injection hj with hj
      exact ⟨[("jsonrpc", JSON.str res.Version)] ++ mid, hj.symm⟩
  · intro msg
    rw [newCodecRequest_request]
    rfl
  · intro members h
    rw [newCodecRequest_request]
    simp only [jsonUnmarshal]
    rw [foldl_storeMember_ID members _ h]
  · intro before after key v hkey hafter
    rw [newCodecRequest_request]
    simp only [jsonUnmarshal]
    rw [List.foldl_append, List.foldl_cons, foldl_storeMember_ID after _ hafter,
      storeMember_ID]
    simp [hkey, storeRaw]

/-- C15, at the request `{"jsonrpc":"2.0","method":"Service.SendMail","id":"a-7"}`
answered with `true`: the body written carries the id "a-7". -/
theorem response_echoes_id_witness :
    (WriteResponse (newCodecRequest (Body.doc (JSON.obj [("jsonrpc", JSON.str "2.0"),
        ("method", JSON.str "Service.SendMail"), ("id", JSON.str "a-7")])))
      {} (some (Iface.json (JSON.bool true)))).written =
      [JSON.obj [("jsonrpc", JSON.str "2.0"), ("result", JSON.bool true),
        ("id", JSON.str "a-7")]] ∧
    (newCodecRequest (Body.doc (JSON.obj ([("jsonrpc", JSON.str "2.0"),
        ("method", JSON.str "Service.SendMail")] ++ ("id", JSON.str "a-7") :: [])))).request.ID =
      (if (JSON.str "a-7").isNull then none else some (JSON.str "a-7")) :=
  ⟨rfl,
    (response_echoes_id
      (newCodecRequest (Body.doc JSON.null)) none GoError.ErrMethodNotFound).2.2.2.2.2
      [("jsonrpc", JSON.str "2.0"), ("method", JSON.str "Service.SendMail")] [] "id"
      (JSON.str "a-7") (by decide) (by intro kv hkv; cases hkv)⟩

/-- C16: on a request that decoded without error and has no params, `ReadRequest`
returns no error and leaves the codec and the target exactly as they were passed
in; a decoded request has no params when the body has no `params` member or when
the last such member is `null`. -/
theorem ReadRequest_absent_params {α : Type}
    (decode : Option (GoMap JSON) → α → α × Option String) (args : α) :
    (∀ c : CodecRequest, c.err = none → c.request.Params = none →
      ReadRequest decode c args = (c, args, none)) ∧
    (∀ members, (∀ kv ∈ members, equalFold "params" kv.1 = false) →
      (newCodecRequest (Body.doc (JSON.obj members))).request.Params = none) ∧
    (∀ before after key, equalFold "params" key = true →
      (∀ kv ∈ after, equalFold "params" kv.1 = false) →
      (newCodecRequest (Body.doc
        (JSON.obj (before ++ (key, JSON.null) :: after)))).request.Params = none) := by
  refine ⟨?_, ?_, ?_⟩
  · intro c hok hp
    simp [ReadRequest, hok, hp]
  · intro members h
    rw [newCodecRequest_request]
    simp only [jsonUnmarshal]
    rw [foldl_storeMember_Params members _ h]
  · intro before after key hkey hafter
    rw [newCodecRequest_request]
    simp only [jsonUnmarshal]
    rw [List.foldl_append, List.foldl_cons, foldl_storeMember_Params after _ hafter,
      storeMember_Params]
    simp [hkey, storeRaw, JSON.isNull]

/-- C16, at the request `{"jsonrpc":"2.0","method":"Service.SendMail","id":1}` with a
decoder that would overwrite the target: the target stays as passed in. -/
theorem ReadRequest_absent_params_witness :
    ReadRequest (fun (_ : Option (GoMap JSON)) (_ : String) => ("changed", none))
      (newCodecRequest (Body.doc (JSON.obj [("jsonrpc", JSON.str "2.0"),
        ("method", JSON.str "Service.SendMail"), ("id", JSON.num 1)]))) "" =
      (newCodecRequest (Body.doc (JSON.obj [("jsonrpc", JSON.str "2.0"),
        ("method", JSON.str "Service.SendMail"), ("id", JSON.num 1)])), "", none) :=
  (ReadRequest_absent_params
    (fun (_ : Option (GoMap JSON)) (_ : String) => ("changed", none)) "").1
    (newCodecRequest (Body.doc (JSON.obj [("jsonrpc", JSON.str "2.0"),
      ("method", JSON.str "Service.SendMail"), ("id", JSON.num 1)]))) rfl rfl

end Mailapi
